import Mathlib

/-!
# Lime: the frame-synchronised queue dispatcher of `IrrHandling.cpp`

A shallow embedding of the queue-draining routines of `IrrHandling`
(`addEventTask`/`runEventTasks`, `addPacketToSend`/`runPacketToSend`,
`addLuaTask`/`runLuaTasks`, `AddCameraToQueue`/`HandleCameraQueue`, `end`, and one
iteration of the loop of `appLoop`).

Conventions of the embedding:

* a C++ pointer is a natural number, `0` being `nullptr`;
* `std::queue` is a list, front first; `push` appends at the tail, `pop` drops the head;
* `std::unordered_map<enet_uint16, ENetPeer*>` is an association list with unique keys;
* every call into a collaborator (console, transport, renderer, script engine, mutex)
  is recorded, in program order, in the `trace` field of the application state;
* a `while` loop is iterated with a bound on the number of iterations (`whileLoop`); the
  result is `none` when the bound is reached before the loop condition becomes false;
* a routine that dereferences a pointer that may be null returns a `Run`: `ok` with the state
  it leaves, or `fault` with the state reached when the null pointer was dereferenced.
-/

namespace Lime

/-! ## Pointers, the peer registry -/

/-- A C++ pointer; `0` is `nullptr`. -/
abbrev Ptr := Nat

/-- The type `std::unordered_map<enet_uint16, ENetPeer*>`. -/
abbrev PeerMap := List (Nat × Ptr)

namespace PeerMap

/-- The keys stored in the map. -/
def keys (m : PeerMap) : List Nat := m.map Prod.fst

/-- The result of `m.find(k)`: the mapped pointer, if the key is present. -/
def find (m : PeerMap) (k : Nat) : Option Ptr :=
  match m with
  | [] => none
  | (k', v) :: rest => if k' = k then some v else find rest k

/-- The statement `m[k] = v`: overwrite the entry of `k`, or add one. -/
def assign (m : PeerMap) (k : Nat) (v : Ptr) : PeerMap :=
  match m with
  | [] => [(k, v)]
  | (k', v') :: rest => if k' = k then (k, v) :: rest else (k', v') :: assign rest k v

/-- The expression `m[k]` read as an rvalue: the mapped pointer and the map afterwards; a
missing key is first inserted with a value-initialised (null) pointer. -/
def index (m : PeerMap) (k : Nat) : Ptr × PeerMap :=
  match find m k with
  | some v => (v, m)
  | none => (0, assign m k 0)

/-- The call `m.erase(k)`. -/
def erase (m : PeerMap) (k : Nat) : PeerMap :=
  m.filter (fun e => !decide (e.1 = k))

end PeerMap

/-! ## Data carried by the queues -/

/-- The enumeration `ENetEventType`. -/
inductive ENetEventType where
  | NONE
  | CONNECT
  | DISCONNECT
  | RECEIVE
  deriving DecidableEq, Repr

/-- The fields of an `ENetPeer` read by the dispatcher; `ptr` is the address of the peer
object, `host` is `address.host`. -/
structure ENetPeer where
  ptr : Ptr
  incomingPeerID : Nat
  outgoingPeerID : Nat
  incomingSessionID : Nat
  host : Nat
  deriving DecidableEq, Repr

/-- An `ENetEvent`. -/
structure ENetEvent where
  type : ENetEventType
  peer : ENetPeer
  channelID : Nat
  data : Nat
  packet : Ptr
  deriving DecidableEq, Repr

/-- A value handed to a script function. `packet p id` is the object `Packet(p, id)`. -/
inductive LuaValue where
  | nil
  | number (n : Nat)
  | packet (p : Ptr) (id : Nat)
  deriving DecidableEq, Repr

/-- A `sol::function` handle: `valid` is the result of `.valid()`, `ref` identifies the
script function it refers to. -/
structure SolFunction where
  ref : Nat
  valid : Bool
  deriving DecidableEq, Repr

/-- A `sol::table` handle holding a sequence: `valid` is the result of `.valid()`, `items`
are the values stored under the keys `1 .. items.length`. -/
structure SolTable where
  valid : Bool
  items : List LuaValue
  deriving DecidableEq, Repr

namespace SolTable

/-- The default-constructed handle `sol::table()`: it refers to no table. -/
def empty : SolTable := { valid := false, items := [] }

/-- The table built by `lua->create_table()` followed by `t[1] = .., t[2] = .., ...`. -/
def create (items : List LuaValue) : SolTable := { valid := true, items := items }

/-- The call `t.size()`. -/
def size (t : SolTable) : Nat := t.items.length

/-- The expression `t[i]` (keys start at `1`). -/
def get (t : SolTable) (i : Nat) : LuaValue :=
  match i with
  | 0 => LuaValue.nil
  | j + 1 => t.items.getD j LuaValue.nil

end SolTable

/-- Modelled from the spec: `PacketToSend` is declared in `IrrHandling.h`, which is not among
the sources. The fields are the ones `runPacketToSend` reads: the payload `p` (an
`ENetPacket*` whose `dataLength` is read for the log), the reliability `tcp`, and the
signed `peerID` and `channel`, for which `-1` means "omitted". -/
structure PacketToSend where
  p : Ptr
  dataLength : Nat
  tcp : Bool
  peerID : Int
  channel : Int
  deriving DecidableEq, Repr

/-- Modelled from the spec: `CameraToQueue` is declared in `IrrHandling.h`, which is not among
the sources. The fields are the constructor arguments of `AddCameraToQueue`, read back by
`HandleCameraQueue`. -/
structure CameraToQueue where
  cam : Ptr
  forward : Ptr
  defaultRendering : Bool
  renderGUI : Bool
  deriving DecidableEq, Repr

/-! ## Collaborator calls -/

/-- The enumeration `MESSAGE_TYPE`, as far as the dispatcher uses it. -/
inductive MESSAGE_TYPE where
  | NORMAL
  | WARNING
  | NETWORK_VERBOSE
  deriving DecidableEq, Repr

/-- A call made by the dispatcher into one of its collaborators. -/
inductive Effect where
  /-- The call `tlqLock.lock()`. -/
  | lock
  /-- The call `tlqLock.unlock()`. -/
  | unlock
  /-- The call `dConsole.sendMsg(text, type)`. -/
  | sendMsg (text : String) (type : MESSAGE_TYPE)
  /-- The call `dConsole.writeOutput()`. -/
  | writeOutput
  /-- The call `MessageBox(nullptr, text, "Lime Runtime Error", MB_ICONEXCLAMATION)`. -/
  | messageBox (text : String)
  /-- The call `device->closeDevice()`. -/
  | closeDevice
  /-- The assignment `p->flags = flags`. -/
  | setFlags (p : Ptr) (flags : Nat)
  /-- The call `enet_host_broadcast(host, channel, p)`. -/
  | hostBroadcast (host : Ptr) (channel : Nat) (p : Ptr)
  /-- The call `enet_peer_send(peer, channel, p)`. -/
  | peerSend (peer : Ptr) (channel : Nat) (p : Ptr)
  /-- The call `enet_host_flush(host)`. -/
  | hostFlush (host : Ptr)
  /-- The call `enet_packet_destroy(p)`. -/
  | packetDestroy (p : Ptr)
  /-- The call `f(sol::as_args(args))` of a script function. -/
  | invoke (f : Nat) (args : List LuaValue)
  /-- The call `driver->beginScene(true, true, backgroundColor)`. -/
  | beginScene
  /-- The call `c->setProjectionMatrix(..)` that ends `setCameraMatrix(c)`. -/
  | setCameraMatrix (c : Ptr)
  /-- The call `smgr->drawAll()`. -/
  | smgrDrawAll
  /-- The call `effects->update()`. -/
  | effectsUpdate
  /-- The call `effects->setClearColour(SColor(0, 0, 0, 0))`. -/
  | effectsSetClearColour
  /-- The call `guienv->drawAll()`. -/
  | guiDrawAll
  /-- The call `smgr->setActiveCamera(c)`. -/
  | setActiveCamera (c : Ptr)
  /-- The call `node->updateAbsolutePosition()`. -/
  | updateAbsolutePosition (node : Ptr)
  /-- The call `c->setTarget(target->getAbsolutePosition())`. -/
  | setTarget (c : Ptr) (target : Ptr)
  /-- The call `driver->endScene()`. -/
  | endScene
  /-- The call `networkHandler->handle(irrHandler)`. -/
  | networkHandle
  /-- The call `luaOnUpdate(dt)`. -/
  | onUpdate
  deriving DecidableEq, Repr

/-- Modelled from the spec: `NetworkHandler` is defined outside the given sources. It owns the
peer registry (read through `getPeers()`, written through `getPeerMap()`), the server host
`getHost()`, the client host `getClient()` and the upstream connection `getPeer()`. -/
structure NetworkHandler where
  peers : PeerMap
  host : Ptr
  client : Ptr
  peer : Ptr
  deriving DecidableEq, Repr

/-- The script engine as the dispatcher sees it: the six optional network handlers looked up
by `runEventTasks`, and the outcome of calling a script function on given arguments
(`none`: it returns; `some msg`: it raises a `sol::error` whose `what()` is `msg`). A script
call is opaque to the dispatcher: the embedding records the call and its outcome, and
takes the body of the script to leave the members of `IrrHandling` alone. -/
structure LuaState where
  SonPeerConnect : SolFunction
  SonPeerDisconnect : SolFunction
  SonPacketReceived : SolFunction
  ConConnect : SolFunction
  ConDisconnect : SolFunction
  ConPacketReceived : SolFunction
  call : Nat → List LuaValue → Option String

/-- The members of `IrrHandling` (and the globals `dConsole`, `networkHandler`) the
dispatcher reads or writes, together with the trace of collaborator calls. -/
structure App where
  /-- The member `verbose`. -/
  verbose : Bool
  /-- The member `didEnd`. -/
  didEnd : Bool
  /-- The flag `dConsole.doOutput`. -/
  doOutput : Bool
  /-- The member `device`, null before the device is created. -/
  device : Ptr
  /-- The object `*networkHandler`. -/
  network : NetworkHandler
  /-- The member `eventOutQueue`. -/
  eventOutQueue : List (Bool × ENetEvent)
  /-- The member `threadedLuaQueue`. -/
  threadedLuaQueue : List (SolFunction × SolTable)
  /-- The member `packetOutQueue`. -/
  packetOutQueue : List PacketToSend
  /-- The member `cameraQueue`. -/
  cameraQueue : List CameraToQueue
  /-- The member `mainCamera`. -/
  mainCamera : Ptr
  /-- The member `mainCameraForward`. -/
  mainCameraForward : Ptr
  /-- The scene manager's active camera, `smgr->getActiveCamera()`. -/
  activeCamera : Ptr
  /-- The member `renderedGUI`. -/
  renderedGUI : Bool
  /-- The member `legacyDrawing`. -/
  legacyDrawing : Bool
  /-- The collaborator calls made so far, oldest first. -/
  trace : List Effect
  deriving DecidableEq, Repr

namespace App

/-- Record one collaborator call. -/
def emit (s : App) (e : Effect) : App := { s with trace := s.trace ++ [e] }

/-- Record several collaborator calls, in order. -/
def emits (s : App) (es : List Effect) : App := { s with trace := s.trace ++ es }

/-- The statement `if (doVerbose) dConsole.sendMsg(text, MESSAGE_TYPE::NETWORK_VERBOSE)`. -/
def verboseMsg (s : App) (doVerbose : Bool) (text : String) : App :=
  if doVerbose then s.emit (Effect.sendMsg text MESSAGE_TYPE.NETWORK_VERBOSE) else s

end App

/-- A `while (cond) body` loop run for at most `fuel` iterations of its body: `some` of the
state in which `cond` is first false, `none` if `cond` still holds after `fuel` iterations. -/
def whileLoop {σ : Type} (cond : σ → Bool) (body : σ → σ) : Nat → σ → Option σ
  | 0, s => if cond s then none else some s
  | fuel + 1, s => if cond s then whileLoop cond body fuel (body s) else some s

/-! ## Shutdown -/

/-- The method `IrrHandling::end` (`end` is a reserved word, hence the underscore). -/
def end_ (s : App) : App :=
  if !s.didEnd then
    let s1 := s.emit (Effect.sendMsg "Ending application..." MESSAGE_TYPE.NORMAL)
    let s2 := if s1.doOutput then s1.emit Effect.writeOutput else s1
    let s3 := if s2.device ≠ 0 then s2.emit Effect.closeDevice else s2
    { s3 with didEnd := true }
  else s

/-! ## The deferred callback queue -/

/-- The method `IrrHandling::addLuaTask`. -/
def addLuaTask (s : App) (f : SolFunction) (args : SolTable) : App :=
  { s with threadedLuaQueue := s.threadedLuaQueue ++ [(f, args)] }

/-- The argument vector built by `runLuaTasks` from the table of a task: empty for an
invalid table handle, else `t[1], .., t[t.size()]`. -/
def collectArgs (t : SolTable) : List LuaValue :=
  if t.valid then (List.range t.size).map (fun i => t.get (i + 1)) else []

/-- The `catch (const sol::error& e)` block of `runLuaTasks`, `err` being `e.what()`. -/
def luaTaskCatch (s : App) (err : String) : App :=
  let s1 := { s with doOutput := true }
  let s2 := s1.emit (Effect.sendMsg err MESSAGE_TYPE.WARNING)
  let s3 := s2.emit Effect.writeOutput
  let s4 := s3.emit (Effect.messageBox ("Lime encountered an error:\n" ++ err))
  end_ s4

/-- The processing of one dequeued task by `runLuaTasks`, before the `pop`: a task with a
valid function handle is called inside `try`; a raised `sol::error` runs the `catch` block,
after which control falls through to the `pop`. -/
def processLuaTask (lua : LuaState) (s : App) (task : SolFunction × SolTable) : App :=
  if task.1.valid then
    let args := collectArgs task.2
    let s1 := s.emit (Effect.invoke task.1.ref args)
    match lua.call task.1.ref args with
    | none => s1
    | some err => luaTaskCatch s1 err
  else s

/-- One iteration of the `while` loop of `runLuaTasks`. -/
def luaTaskBody (lua : LuaState) (s : App) : App :=
  match s.threadedLuaQueue with
  | [] => s
  | task :: _ =>
    let s1 := processLuaTask lua s task
    { s1 with threadedLuaQueue := s1.threadedLuaQueue.tail }

/-- The method `IrrHandling::runLuaTasks`, its loop bounded by `fuel` iterations. -/
def runLuaTasks (lua : LuaState) (fuel : Nat) (s : App) : Option App :=
  whileLoop (fun a => !a.threadedLuaQueue.isEmpty) (luaTaskBody lua) fuel s

/-! ## The inbound event queue -/

/-- The method `IrrHandling::addEventTask`. -/
def addEventTask (s : App) (b : Bool) (event : ENetEvent) : App :=
  { s with eventOutQueue := s.eventOutQueue ++ [(b, event)] }

/-- The statement `networkHandler->getPeerMap()[id] = peer`. -/
def setPeer (s : App) (id : Nat) (peer : Ptr) : App :=
  { s with network := { s.network with peers := s.network.peers.assign id peer } }

/-- The statement `networkHandler->getPeerMap().erase(id)`. -/
def erasePeer (s : App) (id : Nat) : App :=
  { s with network := { s.network with peers := s.network.peers.erase id } }

/-- The server branch (`task.first` true) of the loop body of `runEventTasks`. -/
def serverEvent (lua : LuaState) (doVerbose : Bool) (event : ENetEvent) (s : App) : App :=
  match event.type with
  | ENetEventType.CONNECT =>
    let s1 :=
      if lua.SonPeerConnect.valid then
        addLuaTask s lua.SonPeerConnect (SolTable.create
          [LuaValue.number event.peer.incomingPeerID, LuaValue.number event.peer.host])
      else
        s.verboseMsg doVerbose
          "Networking WARNING: A peer connected but NetworkServer.OnClientConnect is not declared"
    let s2 := setPeer s1 event.peer.incomingPeerID event.peer.ptr
    s2.verboseMsg doVerbose ("Client joined presuming ID " ++ toString event.peer.incomingPeerID
      ++ " from IP " ++ toString event.peer.host)
  | ENetEventType.DISCONNECT =>
    let s1 :=
      if lua.SonPeerDisconnect.valid then
        addLuaTask s lua.SonPeerDisconnect (SolTable.create
          [LuaValue.number event.peer.outgoingPeerID, LuaValue.number event.peer.host])
      else
        s.verboseMsg doVerbose
          "Networking WARNING: A peer disconnected but NetworkServer.OnClientDisconnect is not declared"
    let s2 := erasePeer s1 event.peer.outgoingPeerID
    s2.verboseMsg doVerbose ("Client disconnected abandoning ID "
      ++ toString event.peer.outgoingPeerID ++ " from IP " ++ toString event.peer.host)
  | ENetEventType.RECEIVE =>
    if lua.SonPacketReceived.valid then
      addLuaTask s lua.SonPacketReceived (SolTable.create
        [LuaValue.number event.channelID,
         LuaValue.packet event.packet event.peer.incomingSessionID])
    else
      (s.verboseMsg doVerbose
        "Networking WARNING: A packet was received but NetworkServer.OnPacketReceived is not declared").emit
        (Effect.packetDestroy event.packet)
  | ENetEventType.NONE => s

/-- The client branch (`task.first` false) of the loop body of `runEventTasks`. -/
def clientEvent (lua : LuaState) (doVerbose : Bool) (event : ENetEvent) (s : App) : App :=
  match event.type with
  | ENetEventType.CONNECT =>
    let s1 :=
      if lua.ConConnect.valid then
        addLuaTask s lua.ConConnect SolTable.empty
      else
        s.verboseMsg doVerbose
          "Networking WARNING: Client connected but NetworkClient.OnConnect is not declared"
    s1.verboseMsg doVerbose "Connected to server via client "
  | ENetEventType.DISCONNECT =>
    let s1 :=
      if lua.ConDisconnect.valid then
        addLuaTask s lua.ConDisconnect (SolTable.create [LuaValue.number event.data])
      else
        s.verboseMsg doVerbose
          "Networking WARNING: Client disconnected but NetworkClient.OnDisconnect is not declared"
    s1.verboseMsg doVerbose ("Disconnected from server as client, reason code "
      ++ toString event.data)
  | ENetEventType.RECEIVE =>
    if lua.ConPacketReceived.valid then
      addLuaTask s lua.ConPacketReceived (SolTable.create
        [LuaValue.number event.channelID,
         LuaValue.packet event.packet event.peer.incomingPeerID])
    else
      (s.verboseMsg doVerbose
        "Networking WARNING: A packet was received but NetworkClient.OnPacketReceived is not declared").emit
        (Effect.packetDestroy event.packet)
  | ENetEventType.NONE => s

/-- The processing of one dequeued task by `runEventTasks`, before the `pop`. -/
def processEvent (lua : LuaState) (doVerbose : Bool) (s : App) (task : Bool × ENetEvent) : App :=
  if task.1 then serverEvent lua doVerbose task.2 s else clientEvent lua doVerbose task.2 s

/-- One iteration of the `while` loop of `runEventTasks`. -/
def eventTaskBody (lua : LuaState) (doVerbose : Bool) (s : App) : App :=
  match s.eventOutQueue with
  | [] => s
  | task :: _ =>
    let s1 := processEvent lua doVerbose s task
    { s1 with eventOutQueue := s1.eventOutQueue.tail }

/-- The method `IrrHandling::runEventTasks`, its loop bounded by `fuel` iterations; `lua`
holds the six handlers it looks up after taking the lock. -/
def runEventTasks (lua : LuaState) (fuel : Nat) (s : App) : Option App :=
  let doVerbose := s.verbose
  let s0 := s.emit Effect.lock
  (whileLoop (fun a => !a.eventOutQueue.isEmpty) (eventTaskBody lua doVerbose) fuel s0).map
    (fun a => a.emit Effect.unlock)

/-! ## The outbound packet queue -/

/-- The flag `ENET_PACKET_FLAG_RELIABLE` of the transport library. -/
def ENET_PACKET_FLAG_RELIABLE : Nat := 1

/-- The flag `ENET_PACKET_FLAG_UNRELIABLE_FRAGMENT` of the transport library. -/
def ENET_PACKET_FLAG_UNRELIABLE_FRAGMENT : Nat := 8

/-- Conversion of a signed channel to the `enet_uint8` parameter of the transport calls. -/
def toChannelID (channel : Int) : Nat := (channel % 256).toNat

/-- Conversion of a signed peer id to the `enet_uint16` key of the registry. -/
def toPeerKey (peerID : Int) : Nat := (peerID % 65536).toNat

/-- The method `IrrHandling::addPacketToSend`. -/
def addPacketToSend (s : App) (p : PacketToSend) : App :=
  if p.p ≠ 0 then { s with packetOutQueue := s.packetOutQueue ++ [p] } else s

/-- The state of the loop of `runPacketToSend`: the application and the local variable
`peers`, a copy of the registry. -/
structure SendLoop where
  app : App
  peers : PeerMap
  deriving DecidableEq, Repr

/-- The statement `packetOutQueue.pop()`. -/
def popPacket (s : App) : App := { s with packetOutQueue := s.packetOutQueue.tail }

/-- The text "TCP" or "UDP" appended to the verbose log lines. -/
def viaText (task : PacketToSend) : String := if task.tcp then "TCP" else "UDP"

/-- One iteration of the `while` loop of `runPacketToSend`. Each of the two `continue`
statements finishes the iteration before `packetOutQueue.pop()` is reached. -/
def packetTaskBody (doVerbose : Bool) (st : SendLoop) : SendLoop :=
  match st.app.packetOutQueue with
  | [] => st
  | task :: _ =>
    if task.p ≠ 0 then
      let a := st.app.emit (Effect.setFlags task.p
        (if task.tcp then ENET_PACKET_FLAG_RELIABLE else ENET_PACKET_FLAG_UNRELIABLE_FRAGMENT))
      if task.peerID = -1 ∧ task.channel = -1 then
        let a1 := a.emit (Effect.hostBroadcast a.network.host (toChannelID task.channel) task.p)
        let a2 := a1.emit (Effect.hostFlush a1.network.host)
        let a3 := a2.verboseMsg doVerbose ("Packet of size " ++ toString task.dataLength
          ++ "B sent to all " ++ " on channel " ++ toString task.channel
          ++ " via " ++ viaText task)
        { app := popPacket a3, peers := st.peers }
      else if task.peerID ≠ -1 ∧ task.channel ≠ -1 then
        let r := PeerMap.index st.peers (toPeerKey task.peerID)
        let thisPeer := r.1
        if thisPeer = 0 then
          let a1 := a.verboseMsg doVerbose
            ("Networking WARNING: Failed to send packet to peer with ID "
              ++ toString task.peerID ++ "; peer does not exist")
          { app := a1, peers := r.2 }
        else
          let a1 := a.emit (Effect.peerSend thisPeer (toChannelID task.channel) task.p)
          let a2 := a1.emit (Effect.hostFlush a1.network.host)
          let a3 := a2.verboseMsg doVerbose ("Packet of size " ++ toString task.dataLength
            ++ "B sent to peer with ID " ++ toString task.peerID
            ++ " on channel " ++ toString task.channel ++ " via " ++ viaText task)
          { app := popPacket a3, peers := r.2 }
      else if task.peerID = -1 ∧ task.channel ≠ -1 then
        if a.network.peer = 0 then
          { app := a, peers := st.peers }
        else
          let a1 := a.emit (Effect.peerSend a.network.peer (toChannelID task.channel) task.p)
          let a2 := a1.emit (Effect.hostFlush a1.network.client)
          let a3 := a2.verboseMsg doVerbose ("Packet of size " ++ toString task.dataLength
            ++ "B sent to server" ++ " on channel " ++ toString task.channel
            ++ " via " ++ viaText task)
          { app := popPacket a3, peers := st.peers }
      else
        { app := popPacket a, peers := st.peers }
    else
      { app := popPacket st.app, peers := st.peers }

/-- The state in which `runPacketToSend` enters its loop: the lock taken, the registry
copied into the local variable `peers`. -/
def sendLoopInit (s : App) : SendLoop :=
  let a := s.emit Effect.lock
  { app := a, peers := a.network.peers }

/-- The method `IrrHandling::runPacketToSend`, its loop bounded by `fuel` iterations. -/
def runPacketToSend (fuel : Nat) (s : App) : Option App :=
  let doVerbose := s.verbose
  (whileLoop (fun st => !st.app.packetOutQueue.isEmpty) (packetTaskBody doVerbose) fuel
      (sendLoopInit s)).map
    (fun st => st.app.emit Effect.unlock)

/-! ## The render request queue -/

/-- The method `IrrHandling::AddCameraToQueue`. -/
def AddCameraToQueue (s : App) (cam forward : Ptr) (defaultRendering renderGUI : Bool) : App :=
  if cam ≠ s.mainCamera then
    { s with cameraQueue := s.cameraQueue ++
        [{ cam := cam, forward := forward, defaultRendering := defaultRendering,
           renderGUI := renderGUI }] }
  else s

/-- The outcome of a routine that may dereference a null pointer: `ok s` when it ran through
and left the state `s`, `fault s` when it stopped at a null dereference in the state `s`. -/
inductive Run (σ : Type) where
  | ok (s : σ)
  | fault (s : σ)
  deriving DecidableEq, Repr

namespace Run

/-- The state a run ended in. -/
def state {σ : Type} : Run σ → σ
  | ok s => s
  | fault s => s

/-- Whether the run went through. -/
def isOk {σ : Type} : Run σ → Bool
  | ok _ => true
  | fault _ => false

/-- Sequencing: the second routine runs only if the first went through. -/
def bind {σ : Type} (r : Run σ) (f : σ → Run σ) : Run σ :=
  match r with
  | ok s => f s
  | fault s => fault s

end Run

/-- A `while (cond) body` loop whose body may fault, run for at most `fuel` iterations: `none`
if `cond` still holds after `fuel` iterations that went through. -/
def whileLoopF {σ : Type} (cond : σ → Bool) (body : σ → Run σ) : Nat → σ → Option (Run σ)
  | 0, s => if cond s then none else some (Run.ok s)
  | fuel + 1, s =>
    if cond s then
      match body s with
      | Run.ok s1 => whileLoopF cond body fuel s1
      | Run.fault s1 => some (Run.fault s1)
    else some (Run.ok s)

/-- The method `IrrHandling::setCameraMatrix`: it reads the camera through `c` and the screen
size through `device`, then sets the projection matrix of the camera (orthogonal or
perspective; the matrix itself is not modelled). -/
def setCameraMatrix (s : App) (c : Ptr) : Run App :=
  if c = 0 ∨ s.device = 0 then Run.fault s else Run.ok (s.emit (Effect.setCameraMatrix c))

/-- The statement `smgr->setActiveCamera(c)`. -/
def setActiveCamera (s : App) (c : Ptr) : App :=
  { s.emit (Effect.setActiveCamera c) with activeCamera := c }

/-- The `if (c.cam) { .. }` statement of the loop body of `HandleCameraQueue`. -/
def renderRequest (s : App) (c : CameraToQueue) : Run App :=
  if c.cam ≠ 0 then
    if c.renderGUI && !s.renderedGUI then
      Run.ok { s.emit Effect.guiDrawAll with renderedGUI := true }
    else
      let s1 := setActiveCamera s c.cam
      let s2 := s1.emit (Effect.updateAbsolutePosition c.cam)
      if c.forward = 0 then Run.fault s2
      else
        let s3 := s2.emit (Effect.updateAbsolutePosition c.forward)
        let s4 := s3.emit (Effect.setTarget c.cam c.forward)
        Run.ok (if c.defaultRendering then s4.emit Effect.smgrDrawAll
          else s4.emit Effect.effectsUpdate)
  else Run.ok s

/-- One iteration of the `while` loop of `HandleCameraQueue`. -/
def cameraTaskBody (s : App) : Run App :=
  match s.cameraQueue with
  | [] => Run.ok s
  | c :: _ =>
    ((setCameraMatrix s s.activeCamera).bind (fun s1 => renderRequest s1 c)).bind
      (fun s2 => Run.ok { s2 with cameraQueue := s2.cameraQueue.tail })

/-- The statements of `HandleCameraQueue` before its loop. -/
def cameraQueueEntry (s : App) : Run App :=
  let s0 := s.emit Effect.beginScene
  if s0.activeCamera ≠ 0 then
    (setCameraMatrix s0 s0.activeCamera).bind (fun s1 =>
      Run.ok (if s1.legacyDrawing then s1.emit Effect.smgrDrawAll
        else (s1.emit Effect.effectsUpdate).emit Effect.effectsSetClearColour))
  else Run.ok s0

/-- The method `IrrHandling::HandleCameraQueue`, its loop bounded by `fuel` iterations. -/
def HandleCameraQueue (fuel : Nat) (s : App) : Option (Run App) :=
  match cameraQueueEntry s with
  | Run.fault s1 => some (Run.fault s1)
  | Run.ok s1 =>
    (whileLoopF (fun a => !a.cameraQueue.isEmpty) cameraTaskBody fuel s1).map
      (fun r => r.bind (fun s2 => Run.ok (setActiveCamera s2 s2.mainCamera)))

/-! ## One iteration of the loop of `appLoop` -/

/-- What happens when an iteration of `appLoop` looks up `Lime.OnUpdate` and calls it:
`absent` when it is not a function, `returns` when the protected call gives a valid result,
`invalid msg` when the result is not valid (the error `msg` is logged and the iteration goes
on), `throws msg` when a `sol::error` is thrown. -/
inductive UpdateOutcome where
  | absent
  | returns
  | invalid (msg : String)
  | throws (msg : String)
  deriving DecidableEq, Repr

/-- How an iteration of the loop of `appLoop` ends: `completed` when it reaches the end of the
loop body, `returned` when `appLoop` returns from its `catch` block, `fault` when a null
pointer is dereferenced; each with the state reached. -/
inductive Tick where
  | completed (s : App)
  | returned (s : App)
  | fault (s : App)
  deriving DecidableEq, Repr

/-- The state an iteration of the loop of `appLoop` ended in. -/
def Tick.state : Tick → App
  | Tick.completed s => s
  | Tick.returned s => s
  | Tick.fault s => s

/-- The `try`/`catch` statement of the loop body of `appLoop`. Its `catch` block is, word for
word, the one of `runLuaTasks`, followed by `return`. -/
def onUpdateStep (update : UpdateOutcome) (s : App) : Tick :=
  match update with
  | UpdateOutcome.absent => Tick.completed s
  | UpdateOutcome.returns => Tick.completed (s.emit Effect.onUpdate)
  | UpdateOutcome.invalid msg =>
    Tick.completed ((s.emit Effect.onUpdate).emit (Effect.sendMsg msg MESSAGE_TYPE.WARNING))
  | UpdateOutcome.throws err => Tick.returned (luaTaskCatch (s.emit Effect.onUpdate) err)

/-- The `if (mainCamera) { .. }` statement of the loop body of `appLoop`. -/
def updateMainCamera (s : App) : Run App :=
  if s.mainCamera ≠ 0 then
    let s1 := s.emit (Effect.updateAbsolutePosition s.mainCamera)
    if s.mainCameraForward = 0 then Run.fault s1
    else
      let s2 := s1.emit (Effect.updateAbsolutePosition s.mainCameraForward)
      Run.ok (s2.emit (Effect.setTarget s.mainCamera s.mainCameraForward))
  else Run.ok s

/-- The statements of the loop body of `appLoop` from `HandleCameraQueue()` to
`renderedGUI = false`, not counting those that only read the timer or set the console
caption. -/
def finishFrame (s : App) : App :=
  let s1 := if !s.renderedGUI then s.emit Effect.guiDrawAll else s
  { s1.emit Effect.endScene with renderedGUI := false }

/-- The render phase of an iteration of `appLoop`: the main camera is updated, the render
requests are drained, the GUI is drawn if no request drew it, and the scene is ended. -/
def renderPhase (fuel : Nat) (s : App) : Option (Run App) :=
  match updateMainCamera s with
  | Run.fault a => some (Run.fault a)
  | Run.ok a => (HandleCameraQueue fuel a).map (fun r => r.bind (fun b => Run.ok (finishFrame b)))

/-- The last three statements of the loop body of `appLoop`: `runEventTasks()`, then
`runLuaTasks()`, then `runPacketToSend()`. -/
def drainPhase (lua : LuaState) (fuel : Nat) (s : App) : Option App :=
  (runEventTasks lua fuel s).bind (fun b =>
    (runLuaTasks lua fuel b).bind (fun c => runPacketToSend fuel c))

/-- One iteration of the `while (device->run())` loop of `appLoop`, each loop it runs bounded
by `fuel` iterations. `ranHandlers` is the local flag of `appLoop`, `update` is what the
call of `Lime.OnUpdate` does, `lua` holds the network handlers. The statements that read
the timer, compute `dt`, pace the frame (`updateFPS`, `sleep`), set the console caption or
reset `receiver->lastFocused` touch no member the drains read and are left out;
`networkHandler` is taken to exist, as the drains take it. -/
def appLoopTick (lua : LuaState) (update : UpdateOutcome) (ranHandlers : Bool) (fuel : Nat)
    (s : App) : Option Tick :=
  let s1 := if !ranHandlers then s.emit Effect.networkHandle else s
  match onUpdateStep update s1 with
  | Tick.completed s2 =>
    match renderPhase fuel s2 with
    | none => none
    | some (Run.fault a) => some (Tick.fault a)
    | some (Run.ok a) => (drainPhase lua fuel a).map Tick.completed
  | other => some other

/-- The loop body of `runPacketToSend` reaches `packetOutQueue.pop()` on this packet: it takes
neither of the two `continue` statements. -/
def Passable (net : NetworkHandler) (peers : PeerMap) (task : PacketToSend) : Prop :=
  ¬ (task.p ≠ 0 ∧ task.peerID ≠ -1 ∧ task.channel ≠ -1
      ∧ (PeerMap.index peers (toPeerKey task.peerID)).1 = 0)
    ∧ ¬ (task.p ≠ 0 ∧ task.peerID = -1 ∧ task.channel ≠ -1 ∧ net.peer = 0)

/-! ## Concrete states -/

/-- An application that has not ended, with an open device (at address `1`), a server host
(at address `1`), no upstream connection, an empty registry, empty queues and an empty
trace. -/
def idleApp : App :=
  { verbose := false, didEnd := false, doOutput := false, device := 1,
    network := { peers := [], host := 1, client := 0, peer := 0 },
    eventOutQueue := [], threadedLuaQueue := [], packetOutQueue := [], cameraQueue := [],
    mainCamera := 0, mainCameraForward := 0, activeCamera := 0,
    renderedGUI := false, legacyDrawing := true, trace := [] }

/-- A script engine in which no network handler is declared and no call raises. -/
def quietLua : LuaState :=
  { SonPeerConnect := { ref := 0, valid := false },
    SonPeerDisconnect := { ref := 0, valid := false },
    SonPacketReceived := { ref := 0, valid := false },
    ConConnect := { ref := 0, valid := false },
    ConDisconnect := { ref := 0, valid := false },
    ConPacketReceived := { ref := 0, valid := false },
    call := fun _ _ => none }

/-- A server with peer `10` registered (at address `100`) and two queued packets: the first
addressed to peer `5`, which is not registered, the second to peer `10`. -/
def absentPeerApp : App :=
  { idleApp with
    network := { peers := [(10, 100)], host := 1, client := 0, peer := 0 },
    packetOutQueue :=
      [{ p := 1, dataLength := 2, tcp := true, peerID := 5, channel := 0 },
       { p := 2, dataLength := 2, tcp := true, peerID := 10, channel := 0 }] }

/-- A client without upstream connection (`getPeer()` is null) and one queued packet
addressed upstream (`peerID == -1`, `channel == 0`). -/
def noUpstreamApp : App :=
  { idleApp with
    network := { peers := [], host := 0, client := 2, peer := 0 },
    packetOutQueue :=
      [{ p := 1, dataLength := 2, tcp := true, peerID := -1, channel := 0 }] }

/-- A server with peers `10` and `11` registered (at addresses `100` and `101`) and one
queued Broadcast packet (payload at address `7`, the two bytes of "hi"). -/
def broadcastApp : App :=
  { idleApp with
    network := { peers := [(10, 100), (11, 101)], host := 1, client := 0, peer := 0 },
    packetOutQueue :=
      [{ p := 7, dataLength := 2, tcp := true, peerID := -1, channel := -1 }] }

/-! ## Reading a trace -/

/-- Whether a collaborator call is a call into the transport that sends or flushes. -/
def Effect.isTransport : Effect → Bool
  | Effect.hostBroadcast _ _ _ => true
  | Effect.peerSend _ _ _ => true
  | Effect.hostFlush _ => true
  | _ => false

/-- The transport calls (broadcast, send, flush) of a trace, in order. -/
def transportCalls (tr : List Effect) : List Effect := tr.filter Effect.isTransport

/-- The peers that `enet_peer_send` is called on in a trace, in order. -/
def sendTargets (tr : List Effect) : List Ptr :=
  tr.filterMap (fun e => match e with
    | Effect.peerSend peer _ _ => some peer
    | _ => none)

/-- Whether a collaborator call is `guienv->drawAll()`. -/
def Effect.isGuiDraw : Effect → Bool
  | Effect.guiDrawAll => true
  | _ => false

/-- How many times the GUI layer is drawn in a trace. -/
def guiDraws (tr : List Effect) : Nat := tr.countP Effect.isGuiDraw

/-- The number of GUI draws the `renderedGUI` flag still allows: none once it is set. -/
def unrendered (s : App) : Nat := if s.renderedGUI then 0 else 1

/-- The state `s2` is reached from `s` by calls that draw the GUI no more often than the
`renderedGUI` flag of `s` allows, the flag of `s2` accounting for the draws made. -/
def GuiStep (s s2 : App) : Prop :=
  ∃ es : List Effect, s2.trace = s.trace ++ es ∧ guiDraws es + unrendered s2 ≤ unrendered s

/-- Whether a collaborator call takes or releases `tlqLock`. -/
def Effect.isLockOp : Effect → Bool
  | Effect.lock => true
  | Effect.unlock => true
  | _ => false

/-- Whether a collaborator call is the call of a script function. -/
def Effect.isInvoke : Effect → Bool
  | Effect.invoke _ _ => true
  | _ => false

/-- Whether a collaborator call is a console message or the release of a payload: the calls
the event drain makes between taking and releasing the lock. -/
def Effect.isQuiet : Effect → Bool
  | Effect.sendMsg _ _ => true
  | Effect.packetDestroy _ => true
  | _ => false

/-- Whether a collaborator call is one the deferred callback drain makes: a script call, or a
call of the error report and of the shutdown sequence. -/
def Effect.isScriptPhase : Effect → Bool
  | Effect.invoke _ _ => true
  | Effect.sendMsg _ _ => true
  | Effect.writeOutput => true
  | Effect.messageBox _ => true
  | Effect.closeDevice => true
  | _ => false

/-- Whether a collaborator call is one the packet drain makes inside its loop: setting the
flags of a packet, a transport call, or a console message. -/
def Effect.isSendPhase : Effect → Bool
  | Effect.setFlags _ _ => true
  | Effect.hostBroadcast _ _ _ => true
  | Effect.peerSend _ _ _ => true
  | Effect.hostFlush _ => true
  | Effect.sendMsg _ _ => true
  | _ => false

/-- Whether a collaborator call is a call into the renderer, the scene manager or the GUI
environment. -/
def Effect.isRender : Effect → Bool
  | Effect.beginScene => true
  | Effect.setCameraMatrix _ => true
  | Effect.smgrDrawAll => true
  | Effect.effectsUpdate => true
  | Effect.effectsSetClearColour => true
  | Effect.guiDrawAll => true
  | Effect.setActiveCamera _ => true
  | Effect.updateAbsolutePosition _ => true
  | Effect.setTarget _ _ => true
  | Effect.endScene => true
  | _ => false

/-- The state `s2` is reached from `s` by making calls that all satisfy `P`. -/
def TraceExt (P : Effect → Prop) (s s2 : App) : Prop :=
  ∃ es : List Effect, s2.trace = s.trace ++ es ∧ ∀ e ∈ es, P e

/-- The calls of a trace that are made while `tlqLock` is held, `held` saying whether it is
held when the trace begins (the lock and unlock calls themselves are left out). -/
def heldCalls : Bool → List Effect → List Effect
  | _, [] => []
  | _, Effect.lock :: rest => heldCalls true rest
  | _, Effect.unlock :: rest => heldCalls false rest
  | true, e :: rest => e :: heldCalls true rest
  | false, _ :: rest => heldCalls false rest

/-- Whether `tlqLock` is held after a trace, `held` saying whether it is held when the trace
begins. -/
def lockedAfter : Bool → List Effect → Bool
  | held, [] => held
  | _, Effect.lock :: rest => lockedAfter true rest
  | _, Effect.unlock :: rest => lockedAfter false rest
  | held, _ :: rest => lockedAfter held rest

/-- A peer that `enet_peer_send` may be called on in a drain that starts in the state `s`: a
non-null handle that is the upstream connection or is stored in the registry of `s`. -/
def SendTargetOk (s : App) (p : Ptr) : Prop :=
  p ≠ 0 ∧ (p = s.network.peer ∨ ∃ k, s.network.peers.find k = some p)

/-- A call the packet drain started in the state `s` may make inside its loop: one of the
calls of that loop, and if it is a send, a send to a peer fixed by `s`. -/
def SendCallOk (s : App) (e : Effect) : Prop :=
  e.isSendPhase = true ∧ ∀ p c q, e = Effect.peerSend p c q → SendTargetOk s p

/-- Whether a collaborator call is one an iteration of `appLoop` makes before its render
phase: starting the network handler, calling `Lime.OnUpdate`, logging its error. -/
def Effect.isUpdatePhase : Effect → Bool
  | Effect.networkHandle => true
  | Effect.onUpdate => true
  | Effect.sendMsg _ _ => true
  | _ => false

/-- The script calls of a trace, in order: function and argument vector. -/
def invoked (tr : List Effect) : List (Nat × List LuaValue) :=
  tr.filterMap (fun e => match e with
    | Effect.invoke f args => some (f, args)
    | _ => none)

/-- Whether a collaborator call is the message that opens the shutdown sequence of `end`. -/
def Effect.isShutdown : Effect → Bool
  | Effect.sendMsg text MESSAGE_TYPE.NORMAL => text == "Ending application..."
  | _ => false

/-- How many times the shutdown sequence guarded by `didEnd` was run in a trace. -/
def shutdownCount (tr : List Effect) : Nat := tr.countP Effect.isShutdown

/-- Whether the call of a deferred task is made and raises. -/
def taskRaises (lua : LuaState) (task : SolFunction × SolTable) : Bool :=
  task.1.valid && (lua.call task.1.ref (collectArgs task.2)).isSome

/-- A script engine in which the function `1` raises "boom" and every other call returns. -/
def raisingLua : LuaState :=
  { quietLua with call := fun f _ => if f = 1 then some "boom" else none }

/-- Two deferred callbacks queued: first the function `1`, then the function `2`, each with
the one-element argument table `(number 5)`. -/
def twoTasksApp : App :=
  { idleApp with
    threadedLuaQueue :=
      [({ ref := 1, valid := true }, SolTable.create [LuaValue.number 5]),
       ({ ref := 2, valid := true }, SolTable.create [LuaValue.number 5])] }

/-- Two deferred callbacks queued, both calling the function `1`. -/
def twoRaisingApp : App :=
  { idleApp with
    threadedLuaQueue :=
      [({ ref := 1, valid := true }, SolTable.create [LuaValue.number 5]),
       ({ ref := 1, valid := true }, SolTable.create [LuaValue.number 6])] }

/-- Three deferred callbacks: the function `2` with a two-element table, an invalid function
handle, and the function `3` with an invalid table handle. -/
def mixedTasks : List (SolFunction × SolTable) :=
  [({ ref := 2, valid := true }, SolTable.create [LuaValue.number 5, LuaValue.packet 9 4]),
   ({ ref := 0, valid := false }, SolTable.create [LuaValue.number 6]),
   ({ ref := 3, valid := true }, SolTable.empty)]

/-- A dispatcher with main and active camera `1` (forward node `9`), the GUI not yet drawn,
and three queued requests, for the cameras `2`, `3` and `4`, each with `renderGUI` set. -/
def threeGuiRequestsApp : App :=
  { idleApp with
    mainCamera := 1, mainCameraForward := 9, activeCamera := 1,
    cameraQueue :=
      [{ cam := 2, forward := 12, defaultRendering := true, renderGUI := true },
       { cam := 3, forward := 13, defaultRendering := true, renderGUI := true },
       { cam := 4, forward := 14, defaultRendering := false, renderGUI := true }] }

/-- A dispatcher with main and active camera `1`, the GUI not yet drawn, and two queued
requests with `renderGUI` set: first for the camera `2` (X), then for the camera `3` (Y). -/
def twoGuiRequestsApp : App :=
  { idleApp with
    mainCamera := 1, mainCameraForward := 9, activeCamera := 1,
    cameraQueue :=
      [{ cam := 2, forward := 12, defaultRendering := true, renderGUI := true },
       { cam := 3, forward := 13, defaultRendering := true, renderGUI := true }] }

/-- The dispatcher `threeGuiRequestsApp` with the GUI already drawn this frame. -/
def guiRenderedApp : App :=
  { threeGuiRequestsApp with renderedGUI := true }

/-- The dispatcher `absentPeerApp` with the packet for the unregistered peer `5` behind the
packet for peer `10`: the first packet is sent before the loop stops advancing. -/
def sendThenAbsentApp : App :=
  { absentPeerApp with
    packetOutQueue :=
      [{ p := 2, dataLength := 2, tcp := true, peerID := 10, channel := 0 },
       { p := 1, dataLength := 2, tcp := true, peerID := 5, channel := 0 }] }

/-- A server with peer `10` registered (at address `100`) and one queued packet, addressed
to peer `10`. -/
def onePacketApp : App :=
  { absentPeerApp with
    packetOutQueue :=
      [{ p := 2, dataLength := 2, tcp := true, peerID := 10, channel := 0 }] }

/-- A server in the middle of a session: main and active camera `1` (forward node `9`), no
render request, one Broadcast packet queued and one Receive event queued (of the peer at
address `100`, on channel `1`, payload at address `11`). -/
def tickApp : App :=
  { idleApp with
    mainCamera := 1, mainCameraForward := 9, activeCamera := 1,
    eventOutQueue :=
      [(true, { type := ENetEventType.RECEIVE,
                peer := { ptr := 100, incomingPeerID := 1, outgoingPeerID := 0,
                          incomingSessionID := 0, host := 7 },
                channelID := 1, data := 0, packet := 11 })],
    packetOutQueue :=
      [{ p := 7, dataLength := 2, tcp := true, peerID := -1, channel := -1 }] }

/-- A peer at address `100` that the host knows as peer `1` (`incomingPeerID`) and that knows
the host as peer `0` (`outgoingPeerID`). -/
def peerA : ENetPeer :=
  { ptr := 100, incomingPeerID := 1, outgoingPeerID := 0, incomingSessionID := 0, host := 7 }

/-- A peer at address `101` whose `incomingPeerID` and `outgoingPeerID` are both `4`. -/
def peerB : ENetPeer :=
  { ptr := 101, incomingPeerID := 4, outgoingPeerID := 4, incomingSessionID := 0, host := 8 }

/-- A peer at address `102`. -/
def peerC : ENetPeer :=
  { ptr := 102, incomingPeerID := 5, outgoingPeerID := 5, incomingSessionID := 0, host := 9 }

/-- The Connect event of a peer. -/
def connectEvent (peer : ENetPeer) : ENetEvent :=
  { type := ENetEventType.CONNECT, peer := peer, channelID := 0, data := 0, packet := 0 }

/-- The Disconnect event of a peer. -/
def disconnectEvent (peer : ENetPeer) : ENetEvent :=
  { type := ENetEventType.DISCONNECT, peer := peer, channelID := 0, data := 0, packet := 0 }

/-- A Receive event of a peer, on a channel, with the payload at address `packet`. -/
def receiveEvent (peer : ENetPeer) (channel : Nat) (packet : Ptr) : ENetEvent :=
  { type := ENetEventType.RECEIVE, peer := peer, channelID := channel, data := 0,
    packet := packet }

/-- A server whose queue holds the Connect event of `peerA`, then its Disconnect event. -/
def connectDisconnectApp : App :=
  { idleApp with eventOutQueue := [(true, connectEvent peerA), (true, disconnectEvent peerA)] }

/-- A server whose queue holds three Receive events, of the peers `peerA`, `peerB` and
`peerC`, on the channels `1`, `2` and `3`, with payloads at the addresses `11`, `12`, `13`. -/
def threeReceivesApp : App :=
  { idleApp with
    eventOutQueue := [(true, receiveEvent peerA 1 11), (true, receiveEvent peerB 2 12),
      (true, receiveEvent peerC 3 13)] }

/-- A script engine in which only `NetworkServer.OnPacketReceived` is declared. -/
def serverReceiveLua : LuaState :=
  { quietLua with SonPacketReceived := { ref := 3, valid := true } }

/-- A queue holding a server-role Receive event followed by a client-role Receive event. -/
def twoRolesApp : App :=
  { idleApp with
    eventOutQueue := [(true, receiveEvent peerA 1 11), (false, receiveEvent peerB 2 12)] }

/-- A dispatcher whose designated main camera and active camera are both the camera `1`. -/
def mainActiveApp : App :=
  { idleApp with mainCamera := 1, activeCamera := 1 }

/-- A dispatcher whose designated main camera is the camera `1` while the scene manager's
active camera is the camera `2`. -/
def otherActiveApp : App :=
  { idleApp with mainCamera := 1, activeCamera := 2 }

/-! ## Conditions under which the packet loop makes no progress -/

/-- The front packet is peer-addressed with a payload, and the local registry copy has no
(non-null) peer under its id: the loop body takes the first `continue`. -/
def AbsentPeerFront (st : SendLoop) : Prop :=
  ∃ task rest, st.app.packetOutQueue = task :: rest ∧ task.p ≠ 0 ∧ task.peerID ≠ -1 ∧
    task.channel ≠ -1 ∧ (PeerMap.index st.peers (toPeerKey task.peerID)).1 = 0

/-- The front packet is addressed upstream with a payload, and there is no upstream
connection: the loop body takes the second `continue`. -/
def NoUpstreamFront (st : SendLoop) : Prop :=
  ∃ task rest, st.app.packetOutQueue = task :: rest ∧ task.p ≠ 0 ∧ task.peerID = -1 ∧
    task.channel ≠ -1 ∧ st.app.network.peer = 0

/-! ## What the specification expects of the event drain -/

/-- The handler a script may declare for an event of the given role (`server`) and kind;
an event of kind `NONE` has none. -/
def handlerFor (lua : LuaState) (server : Bool) : ENetEventType → Option SolFunction
  | ENetEventType.CONNECT => some (if server then lua.SonPeerConnect else lua.ConConnect)
  | ENetEventType.DISCONNECT =>
    some (if server then lua.SonPeerDisconnect else lua.ConDisconnect)
  | ENetEventType.RECEIVE =>
    some (if server then lua.SonPacketReceived else lua.ConPacketReceived)
  | ENetEventType.NONE => none

/-- The argument table of the deferred callback of an event, per role and kind. -/
def handlerArgs (server : Bool) (event : ENetEvent) : SolTable :=
  match event.type, server with
  | ENetEventType.CONNECT, true =>
    SolTable.create [LuaValue.number event.peer.incomingPeerID, LuaValue.number event.peer.host]
  | ENetEventType.CONNECT, false => SolTable.empty
  | ENetEventType.DISCONNECT, true =>
    SolTable.create [LuaValue.number event.peer.outgoingPeerID, LuaValue.number event.peer.host]
  | ENetEventType.DISCONNECT, false => SolTable.create [LuaValue.number event.data]
  | ENetEventType.RECEIVE, true =>
    SolTable.create [LuaValue.number event.channelID,
      LuaValue.packet event.packet event.peer.incomingSessionID]
  | ENetEventType.RECEIVE, false =>
    SolTable.create [LuaValue.number event.channelID,
      LuaValue.packet event.packet event.peer.incomingPeerID]
  | ENetEventType.NONE, _ => SolTable.empty

/-- Whether the handler of the role and kind of a task is declared. -/
def handlerDeclared (lua : LuaState) (task : Bool × ENetEvent) : Bool :=
  match handlerFor lua task.1 task.2.type with
  | some h => h.valid
  | none => false

/-- The deferred callback an event gives rise to: one, for its declared handler, or none. -/
def expectedCallback (lua : LuaState) (task : Bool × ENetEvent) :
    Option (SolFunction × SolTable) :=
  match handlerFor lua task.1 task.2.type with
  | some h => if h.valid then some (h, handlerArgs task.1 task.2) else none
  | none => none

/-- The registry after the processing of one event: a server-role Connect stores the peer
under `incomingPeerID`, a server-role Disconnect erases the key `outgoingPeerID`, and no
other event touches it (the two registry statements of the client branch are commented
out in the source). -/
def registryAfter (m : PeerMap) (task : Bool × ENetEvent) : PeerMap :=
  match task.1, task.2.type with
  | true, ENetEventType.CONNECT => m.assign task.2.peer.incomingPeerID task.2.peer.ptr
  | true, ENetEventType.DISCONNECT => m.erase task.2.peer.outgoingPeerID
  | _, _ => m

/-- The payload an event hands back to the transport: that of a Receive event whose handler
is not declared. -/
def expectedRelease (lua : LuaState) (task : Bool × ENetEvent) : Option Ptr :=
  match task.2.type with
  | ENetEventType.RECEIVE => if handlerDeclared lua task then none else some task.2.packet
  | _ => none

/-- The deferred callback of a Receive event: the `OnPacketReceived` handler of its role,
with the arguments `(channel, packet)`. -/
def receiveCallback (lua : LuaState) (task : Bool × ENetEvent) : SolFunction × SolTable :=
  (if task.1 then lua.SonPacketReceived else lua.ConPacketReceived,
   SolTable.create [LuaValue.number task.2.channelID,
     LuaValue.packet task.2.packet
       (if task.1 then task.2.peer.incomingSessionID else task.2.peer.incomingPeerID)])

/-- The payloads released with `enet_packet_destroy` in a trace, in order. -/
def released (tr : List Effect) : List Ptr :=
  tr.filterMap (fun e => match e with
    | Effect.packetDestroy p => some p
    | _ => none)

/-! ## Loops -/

theorem whileLoop_false {σ : Type} (cond : σ → Bool) (body : σ → σ) (fuel : Nat) (s : σ)
    (h : cond s = false) : whileLoop cond body fuel s = some s := by
  cases fuel <;> simp [whileLoop, h]

theorem whileLoop_true_succ {σ : Type} (cond : σ → Bool) (body : σ → σ) (fuel : Nat) (s : σ)
    (h : cond s = true) :
    whileLoop cond body (fuel + 1) s = whileLoop cond body fuel (body s) := by
  simp [whileLoop, h]

/-- A loop whose condition holds along the whole orbit of its body never finishes. -/
theorem whileLoop_none_of_forall {σ : Type} (cond : σ → Bool) (body : σ → σ) (s : σ)
    (h : ∀ n, cond (body^[n] s) = true) : ∀ fuel, whileLoop cond body fuel s = none := by
  intro fuel
  induction fuel generalizing s with
  | zero => simpa [whileLoop] using h 0
  | succ n ih =>
    rw [whileLoop_true_succ cond body n s (by simpa using h 0)]
    apply ih
    intro m
    simpa [Function.iterate_succ_apply] using h (m + 1)

/-- A loop that finishes does so in a state where its condition is false. -/
theorem whileLoop_some_cond {σ : Type} (cond : σ → Bool) (body : σ → σ) :
    ∀ (fuel : Nat) (s t : σ), whileLoop cond body fuel s = some t → cond t = false := by
  intro fuel
  induction fuel with
  | zero =>
    intro s t h
    by_cases hc : cond s = true
    · simp [whileLoop, hc] at h
    · simp [whileLoop, hc] at h
      subst h
      simpa using hc
  | succ n ih =>
    intro s t h
    by_cases hc : cond s = true
    · rw [whileLoop_true_succ cond body n s hc] at h
      exact ih _ _ h
    · simp [whileLoop, hc] at h
      subst h
      simpa using hc

/-- A loop with an invariant that is preserved by the body and implies the loop condition
never finishes. -/
theorem whileLoop_none_of_invariant {σ : Type} (cond : σ → Bool) (body : σ → σ)
    (Inv : σ → Prop) (hstep : ∀ s, Inv s → Inv (body s)) (hcond : ∀ s, Inv s → cond s = true)
    (s : σ) (h : Inv s) : ∀ fuel, whileLoop cond body fuel s = none := by
  apply whileLoop_none_of_forall
  intro n
  apply hcond
  induction n with
  | zero => exact h
  | succ m ih =>
    rw [Function.iterate_succ_apply']
    exact hstep _ ih

/-! ## The peer registry -/

theorem PeerMap.find_assign_self (m : PeerMap) (k : Nat) (v : Ptr) :
    PeerMap.find (PeerMap.assign m k v) k = some v := by
  induction m with
  | nil => simp [PeerMap.assign, PeerMap.find]
  | cons e rest ih =>
    obtain ⟨k', v'⟩ := e
    by_cases h : k' = k
    · simp [PeerMap.assign, PeerMap.find, h]
    · simp [PeerMap.assign, PeerMap.find, h, ih]

theorem PeerMap.index_index (m : PeerMap) (k : Nat) :
    PeerMap.index (PeerMap.index m k).2 k = ((PeerMap.index m k).1, (PeerMap.index m k).2) := by
  unfold PeerMap.index
  cases h : PeerMap.find m k with
  | some v => simp [h]
  | none => simp [PeerMap.find_assign_self]

theorem PeerMap.find_erase_self (m : PeerMap) (k : Nat) :
    PeerMap.find (PeerMap.erase m k) k = none := by
  induction m with
  | nil => rfl
  | cons e rest ih =>
    obtain ⟨k', v'⟩ := e
    by_cases h : k' = k
    · simpa [PeerMap.erase, List.filter_cons, h] using ih
    · have : PeerMap.erase ((k', v') :: rest) k = (k', v') :: PeerMap.erase rest k := by
        simp [PeerMap.erase, List.filter_cons, h]
      rw [this]
      simp [PeerMap.find, h, ih]

theorem PeerMap.erase_of_find_none (m : PeerMap) (k : Nat) (h : PeerMap.find m k = none) :
    PeerMap.erase m k = m := by
  induction m with
  | nil => rfl
  | cons e rest ih =>
    obtain ⟨k', v'⟩ := e
    by_cases hk : k' = k
    · simp [PeerMap.find, hk] at h
    · simp only [PeerMap.find, hk, if_false] at h
      have := ih h
      simp only [PeerMap.erase] at this
      simp [PeerMap.erase, List.filter_cons, hk, this]

theorem PeerMap.erase_assign (m : PeerMap) (k : Nat) (v : Ptr) :
    PeerMap.erase (PeerMap.assign m k v) k = PeerMap.erase m k := by
  induction m with
  | nil => simp [PeerMap.assign, PeerMap.erase]
  | cons e rest ih =>
    obtain ⟨k', v'⟩ := e
    by_cases hk : k' = k
    · simp [PeerMap.assign, PeerMap.erase, List.filter_cons, hk]
    · simp only [PeerMap.erase] at ih
      simp [PeerMap.assign, PeerMap.erase, List.filter_cons, hk, ih]

/-! ## The packet drain -/

theorem packetTaskBody_absentPeer (v : Bool) (st : SendLoop) (h : AbsentPeerFront st) :
    (packetTaskBody v st).app.packetOutQueue = st.app.packetOutQueue
      ∧ AbsentPeerFront (packetTaskBody v st) := by
  obtain ⟨task, rest, hq, hp, hid, hch, hidx⟩ := h
  have hbody : packetTaskBody v st =
      { app := (st.app.emit (Effect.setFlags task.p
            (if task.tcp then ENET_PACKET_FLAG_RELIABLE
              else ENET_PACKET_FLAG_UNRELIABLE_FRAGMENT))).verboseMsg v
            ("Networking WARNING: Failed to send packet to peer with ID "
              ++ toString task.peerID ++ "; peer does not exist"),
        peers := (PeerMap.index st.peers (toPeerKey task.peerID)).2 } := by
    simp [packetTaskBody, hq, hp, hid, hch, hidx]
  have hq2 : (packetTaskBody v st).app.packetOutQueue = st.app.packetOutQueue := by
    rw [hbody]
    cases v <;> rfl
  refine ⟨hq2, task, rest, by rw [hq2, hq], hp, hid, hch, ?_⟩
  rw [hbody]
  simp only [PeerMap.index_index]
  exact hidx

theorem packetTaskBody_noUpstream (v : Bool) (st : SendLoop) (h : NoUpstreamFront st) :
    (packetTaskBody v st).app.packetOutQueue = st.app.packetOutQueue
      ∧ NoUpstreamFront (packetTaskBody v st) := by
  obtain ⟨task, rest, hq, hp, hid, hch, hup⟩ := h
  have hup2 : (st.app.emit (Effect.setFlags task.p
      (if task.tcp then ENET_PACKET_FLAG_RELIABLE
        else ENET_PACKET_FLAG_UNRELIABLE_FRAGMENT))).network.peer = 0 := hup
  have hbody : packetTaskBody v st =
      { app := st.app.emit (Effect.setFlags task.p
          (if task.tcp then ENET_PACKET_FLAG_RELIABLE
            else ENET_PACKET_FLAG_UNRELIABLE_FRAGMENT)),
        peers := st.peers } := by
    simp [packetTaskBody, hq, hp, hid, hch, hup2]
  rw [hbody]
  exact ⟨rfl, task, rest, hq, hp, hid, hch, hup⟩

/-- While the front packet is addressed to an absent peer, any number of iterations of the
loop body leaves the queue as it is. -/
theorem iterate_absentPeer (v : Bool) (st : SendLoop) (h : AbsentPeerFront st) (n : Nat) :
    ((packetTaskBody v)^[n] st).app.packetOutQueue = st.app.packetOutQueue
      ∧ AbsentPeerFront ((packetTaskBody v)^[n] st) := by
  induction n with
  | zero => exact ⟨rfl, h⟩
  | succ m ih =>
    rw [Function.iterate_succ_apply']
    have := packetTaskBody_absentPeer v _ ih.2
    exact ⟨this.1.trans ih.1, this.2⟩

/-- While the front packet is addressed upstream and there is no upstream connection, any
number of iterations of the loop body leaves the queue as it is. -/
theorem iterate_noUpstream (v : Bool) (st : SendLoop) (h : NoUpstreamFront st) (n : Nat) :
    ((packetTaskBody v)^[n] st).app.packetOutQueue = st.app.packetOutQueue
      ∧ NoUpstreamFront ((packetTaskBody v)^[n] st) := by
  induction n with
  | zero => exact ⟨rfl, h⟩
  | succ m ih =>
    rw [Function.iterate_succ_apply']
    have := packetTaskBody_noUpstream v _ ih.2
    exact ⟨this.1.trans ih.1, this.2⟩

theorem sendLoop_cond_of_cons (st : SendLoop) (task : PacketToSend) (rest : List PacketToSend)
    (h : st.app.packetOutQueue = task :: rest) :
    (!st.app.packetOutQueue.isEmpty) = true := by
  simp [h]

/-- With a packet for an absent peer at the front of the queue, `runPacketToSend` does not
return, whatever the fuel. -/
theorem runPacketToSend_none_of_absentPeer (s : App) (h : AbsentPeerFront (sendLoopInit s)) :
    ∀ fuel, runPacketToSend fuel s = none := by
  intro fuel
  unfold runPacketToSend
  simp only []
  rw [whileLoop_none_of_invariant _ _ AbsentPeerFront
    (fun st hst => (packetTaskBody_absentPeer s.verbose st hst).2)
    (fun st hst => by
      obtain ⟨task, rest, hq, _⟩ := hst
      exact sendLoop_cond_of_cons st task rest hq)
    (sendLoopInit s) h fuel]
  rfl

/-- With an upstream packet at the front of the queue and no upstream connection,
`runPacketToSend` does not return, whatever the fuel. -/
theorem runPacketToSend_none_of_noUpstream (s : App) (h : NoUpstreamFront (sendLoopInit s)) :
    ∀ fuel, runPacketToSend fuel s = none := by
  intro fuel
  unfold runPacketToSend
  simp only []
  rw [whileLoop_none_of_invariant _ _ NoUpstreamFront
    (fun st hst => (packetTaskBody_noUpstream s.verbose st hst).2)
    (fun st hst => by
      obtain ⟨task, rest, hq, _⟩ := hst
      exact sendLoop_cond_of_cons st task rest hq)
    (sendLoopInit s) h fuel]
  rfl

theorem absentPeerApp_front : AbsentPeerFront (sendLoopInit absentPeerApp) :=
  ⟨{ p := 1, dataLength := 2, tcp := true, peerID := 5, channel := 0 },
   [{ p := 2, dataLength := 2, tcp := true, peerID := 10, channel := 0 }],
   rfl, by decide, by decide, by decide, by decide⟩

theorem noUpstreamApp_front : NoUpstreamFront (sendLoopInit noUpstreamApp) :=
  ⟨{ p := 1, dataLength := 2, tcp := true, peerID := -1, channel := 0 }, [],
   rfl, by decide, by decide, by decide, rfl⟩

theorem PeerMap.index_snd_of_ne_zero (m : PeerMap) (k : Nat)
    (h : (PeerMap.index m k).1 ≠ 0) : (PeerMap.index m k).2 = m := by
  unfold PeerMap.index at h ⊢
  cases hf : PeerMap.find m k with
  | some v => simp
  | none => simp [hf] at h

theorem verboseMsg_packetOutQueue (a : App) (v : Bool) (text : String) :
    (a.verboseMsg v text).packetOutQueue = a.packetOutQueue := by
  cases v <;> rfl

theorem verboseMsg_network (a : App) (v : Bool) (text : String) :
    (a.verboseMsg v text).network = a.network := by
  cases v <;> rfl

/-- On a packet that takes neither `continue`, one iteration of the loop body removes the
packet and leaves the registry and its local copy as they were. -/
theorem packetTaskBody_passable (v : Bool) (st : SendLoop) (task : PacketToSend)
    (rest : List PacketToSend) (hq : st.app.packetOutQueue = task :: rest)
    (hp : Passable st.app.network st.peers task) :
    (packetTaskBody v st).app.packetOutQueue = rest
      ∧ (packetTaskBody v st).peers = st.peers
      ∧ (packetTaskBody v st).app.network = st.app.network := by
  obtain ⟨h1, h2⟩ := hp
  by_cases hnull : task.p = 0
  · simp [packetTaskBody, hq, hnull, popPacket]
  by_cases hid : task.peerID = -1 <;> by_cases hch : task.channel = -1
  · simp [packetTaskBody, hq, hnull, hid, hch, popPacket, verboseMsg_packetOutQueue,
      verboseMsg_network, App.emit]
  · have hup : st.app.network.peer ≠ 0 := fun h => h2 ⟨hnull, hid, hch, h⟩
    have hup2 : (st.app.emit (Effect.setFlags task.p
        (if task.tcp then ENET_PACKET_FLAG_RELIABLE
          else ENET_PACKET_FLAG_UNRELIABLE_FRAGMENT))).network.peer ≠ 0 := hup
    simp [packetTaskBody, hq, hnull, hid, hch, hup, hup2, popPacket, verboseMsg_packetOutQueue,
      verboseMsg_network, App.emit]
  · simp [packetTaskBody, hq, hnull, hid, hch, popPacket, App.emit]
  · have hpeer : (PeerMap.index st.peers (toPeerKey task.peerID)).1 ≠ 0 :=
      fun h => h1 ⟨hnull, hid, hch, h⟩
    simp [packetTaskBody, hq, hnull, hid, hch, hpeer, popPacket, verboseMsg_packetOutQueue,
      verboseMsg_network, App.emit, PeerMap.index_snd_of_ne_zero _ _ hpeer]

/-- When every queued packet takes neither `continue`, the loop of `runPacketToSend` ends
with the queue empty, within one iteration per packet, the registry and its local copy
being as they were. -/
theorem sendLoop_drains (v : Bool) (k : Nat) :
    ∀ (q : List PacketToSend) (st : SendLoop), st.app.packetOutQueue = q →
      (∀ t ∈ q, Passable st.app.network st.peers t) →
      ∃ st2 : SendLoop,
        whileLoop (fun st => !st.app.packetOutQueue.isEmpty) (packetTaskBody v)
            (q.length + k) st = some st2
          ∧ st2.app.packetOutQueue = [] ∧ st2.peers = st.peers
          ∧ st2.app.network = st.app.network := by
  intro q
  induction q with
  | nil =>
    intro st hq _
    exact ⟨st, whileLoop_false _ _ _ _ (by simp [hq]), hq, rfl, rfl⟩
  | cons t rest ih =>
    intro st hq hpass
    have hfuel : (t :: rest).length + k = (rest.length + k) + 1 := by
      simp only [List.length_cons]; omega
    obtain ⟨b1, b2, b3⟩ :=
      packetTaskBody_passable v st t rest hq (hpass t (List.mem_cons_self _ _))
    obtain ⟨st2, hrun, e1, e2, e3⟩ := ih (packetTaskBody v st) b1 (fun x hx => by
      rw [b2, b3]
      exact hpass x (List.mem_cons_of_mem _ hx))
    refine ⟨st2, ?_, e1, e2.trans b2, e3.trans b3⟩
    rw [hfuel, whileLoop_true_succ _ _ _ _ (by simp [hq])]
    exact hrun

/-- When every queued packet takes neither `continue`, `runPacketToSend` returns, with the
outbound queue empty and the registry unchanged. -/
theorem runPacketToSend_drains (s : App) (k : Nat)
    (h : ∀ t ∈ s.packetOutQueue, Passable s.network s.network.peers t) :
    ∃ s2 : App, runPacketToSend (s.packetOutQueue.length + k) s = some s2
      ∧ s2.packetOutQueue = [] ∧ s2.network = s.network := by
  obtain ⟨st2, hrun, e1, _, e3⟩ :=
    sendLoop_drains s.verbose k s.packetOutQueue (sendLoopInit s) rfl h
  refine ⟨st2.app.emit Effect.unlock, ?_, e1, e3⟩
  unfold runPacketToSend
  simp only []
  rw [hrun]
  rfl

/-- Claim C2 (fails on the code). On `absentPeerApp` (peer `10` registered; queued: a packet
for the unregistered peer `5`, then a packet for peer `10`) `runPacketToSend` does not
complete for any bound on the number of iterations, and after any number of iterations of
its loop body both packets are still queued: the packet for peer `5` is never removed and the
packet behind it is never processed. -/
theorem runPacketToSend_absentPeer_stuck :
    (∀ fuel, runPacketToSend fuel absentPeerApp = none)
      ∧ ∀ n, ((packetTaskBody absentPeerApp.verbose)^[n]
            (sendLoopInit absentPeerApp)).app.packetOutQueue
          = [{ p := 1, dataLength := 2, tcp := true, peerID := 5, channel := 0 },
             { p := 2, dataLength := 2, tcp := true, peerID := 10, channel := 0 }] :=
  ⟨runPacketToSend_none_of_absentPeer absentPeerApp absentPeerApp_front,
   fun n => (iterate_absentPeer _ _ absentPeerApp_front n).1⟩

/-- Claim C3 (fails on the code). On `noUpstreamApp` (no upstream connection; queued: one
packet addressed upstream) `runPacketToSend` does not terminate for any bound on the number
of iterations, and after any number of iterations of its loop body the packet is still
queued: the outbound queue is never emptied. -/
theorem runPacketToSend_noUpstream_stuck :
    (∀ fuel, runPacketToSend fuel noUpstreamApp = none)
      ∧ ∀ n, ((packetTaskBody noUpstreamApp.verbose)^[n]
            (sendLoopInit noUpstreamApp)).app.packetOutQueue
          = [{ p := 1, dataLength := 2, tcp := true, peerID := -1, channel := 0 }] :=
  ⟨runPacketToSend_none_of_noUpstream noUpstreamApp noUpstreamApp_front,
   fun n => (iterate_noUpstream _ _ noUpstreamApp_front n).1⟩

/-! ## The event drain -/

theorem processEvent_eventOutQueue (lua : LuaState) (v : Bool) (s : App)
    (task : Bool × ENetEvent) :
    (processEvent lua v s task).eventOutQueue = s.eventOutQueue := by
  obtain ⟨b, ⟨ty, peer, ch, data, pkt⟩⟩ := task
  unfold processEvent serverEvent clientEvent addLuaTask App.verboseMsg App.emit setPeer erasePeer
  cases b <;> cases v <;> cases ty <;> dsimp only <;> split_ifs <;> rfl

theorem processEvent_setQueue (lua : LuaState) (v : Bool) (s : App)
    (task : Bool × ENetEvent) (q : List (Bool × ENetEvent)) :
    processEvent lua v { s with eventOutQueue := q } task
      = { processEvent lua v s task with eventOutQueue := q } := by
  obtain ⟨b, ⟨ty, peer, ch, data, pkt⟩⟩ := task
  unfold processEvent serverEvent clientEvent addLuaTask App.verboseMsg App.emit setPeer erasePeer
  cases b <;> cases v <;> cases ty <;> dsimp only <;> split_ifs <;> rfl

theorem processEvent_threadedLuaQueue (lua : LuaState) (v : Bool) (s : App)
    (task : Bool × ENetEvent) :
    (processEvent lua v s task).threadedLuaQueue
      = s.threadedLuaQueue ++ (expectedCallback lua task).toList := by
  obtain ⟨b, ⟨ty, peer, ch, data, pkt⟩⟩ := task
  unfold processEvent serverEvent clientEvent addLuaTask App.verboseMsg App.emit setPeer erasePeer
    expectedCallback handlerFor handlerArgs
  cases b <;> cases v <;> cases ty <;> dsimp only <;> split_ifs <;> simp_all

theorem foldl_processEvent_setQueue (lua : LuaState) (v : Bool)
    (l q : List (Bool × ENetEvent)) (s : App) :
    l.foldl (processEvent lua v) { s with eventOutQueue := q }
      = { l.foldl (processEvent lua v) s with eventOutQueue := q } := by
  induction l generalizing s with
  | nil => rfl
  | cons t rest ih =>
    simp only [List.foldl_cons]
    rw [processEvent_setQueue, ih]

theorem foldl_processEvent_threadedLuaQueue (lua : LuaState) (v : Bool)
    (l : List (Bool × ENetEvent)) (s : App) :
    (l.foldl (processEvent lua v) s).threadedLuaQueue
      = s.threadedLuaQueue ++ l.filterMap (expectedCallback lua) := by
  induction l generalizing s with
  | nil => simp
  | cons t rest ih =>
    simp only [List.foldl_cons]
    rw [ih, processEvent_threadedLuaQueue]
    cases h : expectedCallback lua t <;> simp [List.filterMap_cons, h]

theorem foldl_addEventTask (events : List (Bool × ENetEvent)) (s : App) :
    events.foldl (fun a e => addEventTask a e.1 e.2) s
      = { s with eventOutQueue := s.eventOutQueue ++ events } := by
  induction events generalizing s with
  | nil => simp
  | cons e rest ih =>
    simp only [List.foldl_cons]
    rw [ih]
    simp [addEventTask]

theorem expectedCallback_isSome (lua : LuaState) (task : Bool × ENetEvent) :
    (expectedCallback lua task).isSome = handlerDeclared lua task := by
  unfold expectedCallback handlerDeclared
  cases handlerFor lua task.1 task.2.type with
  | none => rfl
  | some h => cases hv : h.valid <;> simp [hv]

theorem length_expectedCallback (lua : LuaState) (l : List (Bool × ENetEvent)) :
    (l.filterMap (expectedCallback lua)).length = (l.filter (handlerDeclared lua)).length := by
  induction l with
  | nil => rfl
  | cons t rest ih =>
    have h := expectedCallback_isSome lua t
    cases hc : expectedCallback lua t with
    | none =>
      rw [hc] at h
      simp [List.filterMap_cons, hc, List.filter_cons, ← h, ih]
    | some c =>
      rw [hc] at h
      simp [List.filterMap_cons, hc, List.filter_cons, ← h, ih]

/-- The loop of `runEventTasks` ends once it has run its body on each queued task, in queue
order, and leaves the queue empty. -/
theorem eventLoop_eq (lua : LuaState) (v : Bool) (k : Nat) :
    ∀ (q : List (Bool × ENetEvent)) (s : App), s.eventOutQueue = q →
      whileLoop (fun a => !a.eventOutQueue.isEmpty) (eventTaskBody lua v) (q.length + k) s
        = some { q.foldl (processEvent lua v) s with eventOutQueue := [] } := by
  intro q
  induction q with
  | nil =>
    intro s hs
    rw [whileLoop_false _ _ _ _ (by simp [hs])]
    cases s
    simp_all
  | cons t rest ih =>
    intro s hs
    have hfuel : (t :: rest).length + k = (rest.length + k) + 1 := by
      simp only [List.length_cons]; omega
    rw [hfuel, whileLoop_true_succ _ _ _ _ (by simp [hs])]
    have hbody : eventTaskBody lua v s
        = { processEvent lua v s t with eventOutQueue := rest } := by
      simp [eventTaskBody, hs, processEvent_eventOutQueue]
    rw [hbody, ih _ rfl, List.foldl_cons, foldl_processEvent_setQueue]

/-- The state `runEventTasks` returns, when run with at least as much fuel as there are
queued events. -/
theorem runEventTasks_eq (lua : LuaState) (s : App) (k : Nat) :
    runEventTasks lua (s.eventOutQueue.length + k) s
      = some (App.emit { s.eventOutQueue.foldl (processEvent lua s.verbose)
          (s.emit Effect.lock) with eventOutQueue := [] } Effect.unlock) := by
  unfold runEventTasks
  simp only []
  rw [eventLoop_eq lua s.verbose k s.eventOutQueue (s.emit Effect.lock) rfl]
  rfl

/-- Claim C1. For every sequence `events` pushed with `addEventTask` (behind whatever is
already queued) and every choice of declared handlers `lua`, `runEventTasks` returns, given
at least one unit of fuel per queued event; the returned state is the one obtained by
running the loop body on each queued event once, in push order; the deferred queue has
grown, at its tail, by exactly the callbacks of the events whose role/kind handler is
declared, in push order; and the inbound event queue is empty. -/
theorem runEventTasks_fifo (lua : LuaState) (s : App) (events : List (Bool × ENetEvent))
    (k : Nat) :
    ∃ s2 : App,
      runEventTasks lua ((s.eventOutQueue ++ events).length + k)
          (events.foldl (fun a e => addEventTask a e.1 e.2) s) = some s2
      ∧ s2 = App.emit { (s.eventOutQueue ++ events).foldl (processEvent lua s.verbose)
            ((events.foldl (fun a e => addEventTask a e.1 e.2) s).emit Effect.lock)
            with eventOutQueue := [] } Effect.unlock
      ∧ s2.threadedLuaQueue
          = s.threadedLuaQueue ++ (s.eventOutQueue ++ events).filterMap (expectedCallback lua)
      ∧ ((s.eventOutQueue ++ events).filterMap (expectedCallback lua)).length
          = ((s.eventOutQueue ++ events).filter (handlerDeclared lua)).length
      ∧ s2.eventOutQueue = [] := by
  have hq : (events.foldl (fun a e => addEventTask a e.1 e.2) s).eventOutQueue
      = s.eventOutQueue ++ events := by rw [foldl_addEventTask]
  have hv : (events.foldl (fun a e => addEventTask a e.1 e.2) s).verbose = s.verbose := by
    rw [foldl_addEventTask]
  have hl : (events.foldl (fun a e => addEventTask a e.1 e.2) s).threadedLuaQueue
      = s.threadedLuaQueue := by rw [foldl_addEventTask]
  have hrun := runEventTasks_eq lua (events.foldl (fun a e => addEventTask a e.1 e.2) s) k
  rw [hq, hv] at hrun
  refine ⟨_, hrun, rfl, ?_, length_expectedCallback lua _, rfl⟩
  show (List.foldl (processEvent lua s.verbose) _ (s.eventOutQueue ++ events)).threadedLuaQueue
    = _
  rw [foldl_processEvent_threadedLuaQueue]
  show (List.foldl (fun a e => addEventTask a e.1 e.2) s events).threadedLuaQueue ++ _ = _
  rw [hl]

/-! ## Broadcast -/

theorem transportCalls_append (a b : List Effect) :
    transportCalls (a ++ b) = transportCalls a ++ transportCalls b := by
  simp [transportCalls]

theorem sendTargets_append (a b : List Effect) :
    sendTargets (a ++ b) = sendTargets a ++ sendTargets b := by
  simp [sendTargets]

theorem end_of_didEnd (s : App) (h : s.didEnd = true) : end_ s = s := by
  simp [end_, h]

theorem end_didEnd (s : App) : (end_ s).didEnd = true := by
  unfold end_
  cases h : s.didEnd <;> simp [h]

theorem end_end (s : App) : end_ (end_ s) = end_ s :=
  end_of_didEnd (end_ s) (end_didEnd s)

theorem end_trace_of_not_didEnd (s : App) (h : s.didEnd = false) :
    (end_ s).trace = s.trace ++
      ([Effect.sendMsg "Ending application..." MESSAGE_TYPE.NORMAL]
        ++ (if s.doOutput then [Effect.writeOutput] else [])
        ++ (if s.device ≠ 0 then [Effect.closeDevice] else [])) := by
  unfold end_ App.emit
  cases hd : s.doOutput <;> by_cases hv : s.device = 0 <;> simp [h, hd, hv]

theorem end_threadedLuaQueue (s : App) : (end_ s).threadedLuaQueue = s.threadedLuaQueue := by
  unfold end_ App.emit
  dsimp only
  split_ifs <;> rfl

theorem end_setLuaQueue (s : App) (q : List (SolFunction × SolTable)) :
    end_ { s with threadedLuaQueue := q } = { end_ s with threadedLuaQueue := q } := by
  unfold end_ App.emit
  dsimp only
  split_ifs <;> rfl

/-! ## The deferred callback drain -/

theorem collectArgs_eq (t : SolTable) : collectArgs t = if t.valid then t.items else [] := by
  unfold collectArgs
  split_ifs
  · apply List.ext_getElem
    · simp [SolTable.size]
    · intro n h1 h2
      simp [SolTable.get, SolTable.size, List.getD_eq_getElem?_getD,
        List.getElem?_eq_getElem h2]
  · rfl

theorem processLuaTask_threadedLuaQueue (lua : LuaState) (s : App)
    (task : SolFunction × SolTable) :
    (processLuaTask lua s task).threadedLuaQueue = s.threadedLuaQueue := by
  unfold processLuaTask luaTaskCatch
  dsimp only
  split_ifs
  · cases lua.call task.1.ref (collectArgs task.2) with
    | none => rfl
    | some err => simp only [end_threadedLuaQueue]; rfl
  · rfl

theorem processLuaTask_setQueue (lua : LuaState) (s : App) (task : SolFunction × SolTable)
    (q : List (SolFunction × SolTable)) :
    processLuaTask lua { s with threadedLuaQueue := q } task
      = { processLuaTask lua s task with threadedLuaQueue := q } := by
  unfold processLuaTask luaTaskCatch
  dsimp only
  split_ifs
  · cases lua.call task.1.ref (collectArgs task.2) with
    | none => rfl
    | some err => simp only [← end_setLuaQueue]; rfl
  · rfl

theorem foldl_processLuaTask_setQueue (lua : LuaState)
    (l q : List (SolFunction × SolTable)) (s : App) :
    l.foldl (processLuaTask lua) { s with threadedLuaQueue := q }
      = { l.foldl (processLuaTask lua) s with threadedLuaQueue := q } := by
  induction l generalizing s with
  | nil => rfl
  | cons t rest ih =>
    simp only [List.foldl_cons]
    rw [processLuaTask_setQueue, ih]

/-- The loop of `runLuaTasks` ends once it has run its body on each queued task, in queue
order, and leaves the queue empty. -/
theorem luaLoop_eq (lua : LuaState) (k : Nat) :
    ∀ (q : List (SolFunction × SolTable)) (s : App), s.threadedLuaQueue = q →
      runLuaTasks lua (q.length + k) s
        = some { q.foldl (processLuaTask lua) s with threadedLuaQueue := [] } := by
  intro q
  unfold runLuaTasks
  induction q with
  | nil =>
    intro s hs
    rw [whileLoop_false _ _ _ _ (by simp [hs])]
    cases s
    simp_all
  | cons t rest ih =>
    intro s hs
    have hfuel : (t :: rest).length + k = (rest.length + k) + 1 := by
      simp only [List.length_cons]; omega
    rw [hfuel, whileLoop_true_succ _ _ _ _ (by simp [hs])]
    have hbody : luaTaskBody lua s
        = { processLuaTask lua s t with threadedLuaQueue := rest } := by
      simp [luaTaskBody, hs, processLuaTask_threadedLuaQueue]
    rw [hbody, ih _ rfl, List.foldl_cons, foldl_processLuaTask_setQueue]

theorem invoked_append (a b : List Effect) : invoked (a ++ b) = invoked a ++ invoked b := by
  simp [invoked]

theorem shutdownCount_append (a b : List Effect) :
    shutdownCount (a ++ b) = shutdownCount a + shutdownCount b := by
  simp [shutdownCount]

theorem end_invoked (s : App) : invoked (end_ s).trace = invoked s.trace := by
  cases h : s.didEnd
  · rw [end_trace_of_not_didEnd s h, invoked_append]
    cases s.doOutput <;> by_cases hd : s.device = 0 <;> simp [invoked, hd]
  · rw [end_of_didEnd s h]

theorem end_shutdownCount (s : App) :
    shutdownCount (end_ s).trace = shutdownCount s.trace + (if s.didEnd then 0 else 1) := by
  cases h : s.didEnd
  · rw [end_trace_of_not_didEnd s h, shutdownCount_append]
    cases s.doOutput <;> by_cases hd : s.device = 0 <;>
      simp [shutdownCount, Effect.isShutdown, hd, List.countP_cons]
  · rw [end_of_didEnd s h]
    simp

theorem processLuaTask_of_invalid (lua : LuaState) (s : App) (task : SolFunction × SolTable)
    (hv : task.1.valid = false) : processLuaTask lua s task = s := by
  simp [processLuaTask, hv]

theorem processLuaTask_of_return (lua : LuaState) (s : App) (task : SolFunction × SolTable)
    (hv : task.1.valid = true) (hc : lua.call task.1.ref (collectArgs task.2) = none) :
    processLuaTask lua s task = s.emit (Effect.invoke task.1.ref (collectArgs task.2)) := by
  simp [processLuaTask, hv, hc]

theorem processLuaTask_of_raise (lua : LuaState) (s : App) (task : SolFunction × SolTable)
    (err : String)
    (hv : task.1.valid = true) (hc : lua.call task.1.ref (collectArgs task.2) = some err) :
    processLuaTask lua s task
      = luaTaskCatch (s.emit (Effect.invoke task.1.ref (collectArgs task.2))) err := by
  simp [processLuaTask, hv, hc]

theorem luaTaskCatch_invoked (s : App) (err : String) :
    invoked (luaTaskCatch s err).trace = invoked s.trace := by
  unfold luaTaskCatch
  dsimp only
  rw [end_invoked]
  simp [App.emit, invoked]

theorem luaTaskCatch_shutdownCount (s : App) (err : String) :
    shutdownCount (luaTaskCatch s err).trace
      = shutdownCount s.trace + (if s.didEnd then 0 else 1) := by
  unfold luaTaskCatch
  dsimp only
  rw [end_shutdownCount]
  simp [App.emit, shutdownCount, Effect.isShutdown, List.countP_cons]

theorem processLuaTask_invoked (lua : LuaState) (s : App) (task : SolFunction × SolTable) :
    invoked (processLuaTask lua s task).trace
      = invoked s.trace ++
          (if task.1.valid then [(task.1.ref, collectArgs task.2)] else []) := by
  cases hv : task.1.valid
  · simp [processLuaTask_of_invalid lua s task hv]
  · cases hc : lua.call task.1.ref (collectArgs task.2) with
    | none =>
      rw [processLuaTask_of_return lua s task hv hc]
      simp [App.emit, invoked]
    | some err =>
      rw [processLuaTask_of_raise lua s task err hv hc, luaTaskCatch_invoked]
      simp [App.emit, invoked]

theorem processLuaTask_didEnd (lua : LuaState) (s : App) (task : SolFunction × SolTable) :
    (processLuaTask lua s task).didEnd = (s.didEnd || taskRaises lua task) := by
  cases hv : task.1.valid
  · simp [processLuaTask_of_invalid lua s task hv, taskRaises, hv]
  · cases hc : lua.call task.1.ref (collectArgs task.2) with
    | none =>
      rw [processLuaTask_of_return lua s task hv hc]
      simp [App.emit, taskRaises, hv, hc]
    | some err =>
      rw [processLuaTask_of_raise lua s task err hv hc]
      simp [luaTaskCatch, end_didEnd, taskRaises, hv, hc]

theorem processLuaTask_shutdownCount (lua : LuaState) (s : App)
    (task : SolFunction × SolTable) :
    shutdownCount (processLuaTask lua s task).trace
      = shutdownCount s.trace + (if !s.didEnd && taskRaises lua task then 1 else 0) := by
  cases hv : task.1.valid
  · simp [processLuaTask_of_invalid lua s task hv, taskRaises, hv]
  · cases hc : lua.call task.1.ref (collectArgs task.2) with
    | none =>
      rw [processLuaTask_of_return lua s task hv hc]
      simp [App.emit, taskRaises, hv, hc, shutdownCount, Effect.isShutdown]
    | some err =>
      rw [processLuaTask_of_raise lua s task err hv hc, luaTaskCatch_shutdownCount]
      cases hd : s.didEnd <;>
        simp [App.emit, taskRaises, hv, hc, hd, shutdownCount, Effect.isShutdown]

theorem foldl_processLuaTask_invoked (lua : LuaState) (q : List (SolFunction × SolTable))
    (s : App) :
    invoked (q.foldl (processLuaTask lua) s).trace
      = invoked s.trace ++
          (q.filter (fun t => t.1.valid)).map (fun t => (t.1.ref, collectArgs t.2)) := by
  induction q generalizing s with
  | nil => simp
  | cons t rest ih =>
    simp only [List.foldl_cons]
    rw [ih, processLuaTask_invoked]
    cases hv : t.1.valid <;> simp [List.filter_cons, hv]

theorem foldl_processLuaTask_didEnd (lua : LuaState) (q : List (SolFunction × SolTable))
    (s : App) :
    (q.foldl (processLuaTask lua) s).didEnd = (s.didEnd || q.any (taskRaises lua)) := by
  induction q generalizing s with
  | nil => simp
  | cons t rest ih =>
    simp only [List.foldl_cons]
    rw [ih, processLuaTask_didEnd]
    simp [Bool.or_assoc]

theorem shutdown_arith (n : Nat) (a b c : Bool) :
    (n + (if (!a && b) = true then 1 else 0)) + (if (!(a || b) && c) = true then 1 else 0)
      = n + (if (!a && (b || c)) = true then 1 else 0) := by
  cases a <;> cases b <;> cases c <;> simp

theorem foldl_processLuaTask_shutdownCount (lua : LuaState)
    (q : List (SolFunction × SolTable)) (s : App) :
    shutdownCount (q.foldl (processLuaTask lua) s).trace
      = shutdownCount s.trace + (if !s.didEnd && q.any (taskRaises lua) then 1 else 0) := by
  induction q generalizing s with
  | nil => simp
  | cons t rest ih =>
    simp only [List.foldl_cons]
    rw [ih, processLuaTask_shutdownCount, processLuaTask_didEnd]
    simp only [List.any_cons]
    exact shutdown_arith _ _ _ _

/-- When no call raises, the tasks of a deferred queue only add their calls to the trace. -/
theorem foldl_processLuaTask_quiet (lua : LuaState) (q : List (SolFunction × SolTable))
    (s : App)
    (h : ∀ t ∈ q, t.1.valid = true → lua.call t.1.ref (collectArgs t.2) = none) :
    q.foldl (processLuaTask lua) s
      = s.emits ((q.filter (fun t => t.1.valid)).map
          (fun t => Effect.invoke t.1.ref (collectArgs t.2))) := by
  induction q generalizing s with
  | nil => simp [App.emits]
  | cons t rest ih =>
    simp only [List.foldl_cons]
    rw [ih _ (fun x hx => h x (List.mem_cons_of_mem _ hx))]
    cases hv : t.1.valid
    · simp [processLuaTask, hv, List.filter_cons]
    · have := h t (List.mem_cons_self _ _) hv
      simp [processLuaTask, hv, this, List.filter_cons, App.emits, App.emit]

/-- Claim C5 (fails on the code). On `twoTasksApp` (queued: the function `1`, whose call
raises, then the function `2`) `runLuaTasks` returns after calling both: the `catch` block
runs `end()` and falls through to the `pop`, and the loop goes on to call the function `2`,
queued after the one that raised. -/
theorem runLuaTasks_continues_after_raise :
    taskRaises raisingLua ({ ref := 1, valid := true }, SolTable.create [LuaValue.number 5])
        = true
      ∧ ∃ s2 : App, runLuaTasks raisingLua 2 twoTasksApp = some s2
          ∧ invoked s2.trace = [(1, [LuaValue.number 5]), (2, [LuaValue.number 5])]
          ∧ s2.didEnd = true
          ∧ s2.threadedLuaQueue = [] := by
  refine ⟨by decide, ?_⟩
  have h := luaLoop_eq raisingLua 0 twoTasksApp.threadedLuaQueue twoTasksApp rfl
  refine ⟨_, h, ?_, ?_, rfl⟩
  · show invoked (List.foldl (processLuaTask raisingLua) twoTasksApp
        twoTasksApp.threadedLuaQueue).trace = _
    rw [foldl_processLuaTask_invoked]
    decide
  · show (List.foldl (processLuaTask raisingLua) twoTasksApp
        twoTasksApp.threadedLuaQueue).didEnd = true
    rw [foldl_processLuaTask_didEnd]
    decide

/-- Claim C6. `end()` is idempotent: for every state, `end(); end()` leaves the same state,
trace included, as `end()`; once `didEnd` is set a call changes nothing; and a call sets
`didEnd`. Consequently a `runLuaTasks` drain adds to the trace one run of the shutdown
sequence if the application had not ended and some call raises, whatever the number of
calls that raise, and none otherwise. -/
theorem end_idempotent_shutdown_once :
    (∀ s : App, end_ (end_ s) = end_ s)
      ∧ (∀ s : App, s.didEnd = true → end_ s = s)
      ∧ (∀ s : App, (end_ s).didEnd = true)
      ∧ (∀ (lua : LuaState) (s : App) (k : Nat), ∃ s2 : App,
          runLuaTasks lua (s.threadedLuaQueue.length + k) s = some s2
          ∧ shutdownCount s2.trace = shutdownCount s.trace +
              (if !s.didEnd && s.threadedLuaQueue.any (taskRaises lua) then 1 else 0)
          ∧ (s.didEnd = false → s.threadedLuaQueue.any (taskRaises lua) = true →
              shutdownCount s2.trace = shutdownCount s.trace + 1)
          ∧ shutdownCount s2.trace ≤ shutdownCount s.trace + 1) := by
  refine ⟨end_end, end_of_didEnd, end_didEnd, ?_⟩
  intro lua s k
  have hcount : shutdownCount
      ({ s.threadedLuaQueue.foldl (processLuaTask lua) s with threadedLuaQueue := [] } : App).trace
      = shutdownCount s.trace +
          (if !s.didEnd && s.threadedLuaQueue.any (taskRaises lua) then 1 else 0) :=
    foldl_processLuaTask_shutdownCount lua s.threadedLuaQueue s
  refine ⟨_, luaLoop_eq lua k s.threadedLuaQueue s rfl, hcount, ?_, ?_⟩
  · intro hd hr
    rw [hcount]
    simp [hd, hr]
  · rw [hcount]
    split_ifs <;> omega

theorem end_idempotent_shutdown_once_witness :
    twoRaisingApp.didEnd = false
      ∧ twoRaisingApp.threadedLuaQueue.any (taskRaises raisingLua) = true
      ∧ twoRaisingApp.threadedLuaQueue.countP (taskRaises raisingLua) = 2
      ∧ end_ (end_ twoRaisingApp) = end_ twoRaisingApp
      ∧ (end_ twoRaisingApp).didEnd = true
      ∧ end_ (end_ twoRaisingApp) = end_ twoRaisingApp
      ∧ ∃ s2 : App, runLuaTasks raisingLua (2 + 0) twoRaisingApp = some s2
          ∧ shutdownCount s2.trace = shutdownCount twoRaisingApp.trace + 1 := by
  refine ⟨rfl, by decide, by decide, end_idempotent_shutdown_once.1 twoRaisingApp,
    end_idempotent_shutdown_once.2.2.1 twoRaisingApp,
    end_idempotent_shutdown_once.2.1 (end_ twoRaisingApp)
      (end_idempotent_shutdown_once.2.2.1 twoRaisingApp), ?_⟩
  obtain ⟨s2, h1, _, h3, _⟩ := end_idempotent_shutdown_once.2.2.2 raisingLua twoRaisingApp 0
  exact ⟨s2, h1, h3 rfl (by decide)⟩

theorem foldl_addLuaTask (tasks : List (SolFunction × SolTable)) (s : App) :
    tasks.foldl (fun a t => addLuaTask a t.1 t.2) s
      = { s with threadedLuaQueue := s.threadedLuaQueue ++ tasks } := by
  induction tasks generalizing s with
  | nil => simp
  | cons t rest ih =>
    simp only [List.foldl_cons]
    rw [ih]
    simp [addLuaTask]

/-- Claim C7. For every sequence `tasks` pushed with `addLuaTask` (behind whatever is already
queued) in which no call raises, `runLuaTasks` returns, given one unit of fuel per queued
entry; the state it returns differs from the one before the pushes only in that the queue
is empty and that the trace has grown by one call per entry with a valid function handle,
in push order, an entry with an invalid handle contributing nothing (no call, no error
report); and the arguments of each call are the elements `t[1], .., t[n]` of the entry's
table, in order. -/
theorem runLuaTasks_fifo (lua : LuaState) (s : App) (tasks : List (SolFunction × SolTable))
    (k : Nat)
    (h : ∀ t ∈ s.threadedLuaQueue ++ tasks, t.1.valid = true →
      lua.call t.1.ref (collectArgs t.2) = none) :
    ∃ s2 : App,
      runLuaTasks lua ((s.threadedLuaQueue ++ tasks).length + k)
          (tasks.foldl (fun a t => addLuaTask a t.1 t.2) s) = some s2
      ∧ s2 = { s with
          threadedLuaQueue := [],
          trace := s.trace ++ ((s.threadedLuaQueue ++ tasks).filter (fun t => t.1.valid)).map
            (fun t => Effect.invoke t.1.ref (collectArgs t.2)) }
      ∧ s2.threadedLuaQueue = []
      ∧ ∀ t : SolTable, t.valid = true →
          collectArgs t = (List.range t.size).map (fun i => t.get (i + 1))
            ∧ collectArgs t = t.items := by
  rw [foldl_addLuaTask]
  refine ⟨_, luaLoop_eq lua k (s.threadedLuaQueue ++ tasks) _ rfl, ?_, rfl, ?_⟩
  · rw [foldl_processLuaTask_quiet lua (s.threadedLuaQueue ++ tasks) _ h]
    rfl
  · intro t ht
    refine ⟨by simp [collectArgs, ht], ?_⟩
    rw [collectArgs_eq, if_pos ht]

theorem runLuaTasks_fifo_witness :
    ∃ s2 : App,
      runLuaTasks quietLua (3 + 0)
          (mixedTasks.foldl (fun a t => addLuaTask a t.1 t.2) idleApp) = some s2
      ∧ s2.trace = [Effect.invoke 2 [LuaValue.number 5, LuaValue.packet 9 4],
          Effect.invoke 3 []]
      ∧ s2.threadedLuaQueue = [] := by
  obtain ⟨s2, h1, h2, h3, _⟩ := runLuaTasks_fifo quietLua idleApp mixedTasks 0
    (fun _ _ _ => rfl)
  refine ⟨s2, h1, ?_, h3⟩
  rw [h2]
  decide

/-! ## The registry and the payloads under the event drain -/

theorem processEvent_network (lua : LuaState) (v : Bool) (s : App)
    (task : Bool × ENetEvent) :
    (processEvent lua v s task).network
      = { s.network with peers := registryAfter s.network.peers task } := by
  obtain ⟨b, ⟨ty, peer, ch, data, pkt⟩⟩ := task
  unfold processEvent serverEvent clientEvent addLuaTask App.verboseMsg App.emit setPeer erasePeer
    registryAfter
  cases b <;> cases v <;> cases ty <;> dsimp only <;> split_ifs <;> first | rfl | contradiction

theorem processEvent_released (lua : LuaState) (v : Bool) (s : App)
    (task : Bool × ENetEvent) :
    released (processEvent lua v s task).trace
      = released s.trace ++ (expectedRelease lua task).toList := by
  obtain ⟨b, ⟨ty, peer, ch, data, pkt⟩⟩ := task
  unfold processEvent serverEvent clientEvent addLuaTask App.verboseMsg App.emit setPeer erasePeer
    expectedRelease handlerDeclared handlerFor
  cases b <;> cases v <;> cases ty <;> dsimp only <;> split_ifs <;> simp_all [released]

theorem foldl_processEvent_network (lua : LuaState) (v : Bool)
    (l : List (Bool × ENetEvent)) (s : App) :
    (l.foldl (processEvent lua v) s).network
      = { s.network with peers := l.foldl registryAfter s.network.peers } := by
  induction l generalizing s with
  | nil => rfl
  | cons t rest ih =>
    simp only [List.foldl_cons]
    rw [ih, processEvent_network]

theorem released_append (a b : List Effect) : released (a ++ b) = released a ++ released b := by
  simp [released]

theorem foldl_processEvent_released (lua : LuaState) (v : Bool)
    (l : List (Bool × ENetEvent)) (s : App) :
    released (l.foldl (processEvent lua v) s).trace
      = released s.trace ++ l.filterMap (expectedRelease lua) := by
  induction l generalizing s with
  | nil => simp
  | cons t rest ih =>
    simp only [List.foldl_cons]
    rw [ih, processEvent_released]
    cases h : expectedRelease lua t <;> simp [List.filterMap_cons, h]

/-- The registry `runEventTasks` leaves: the queued events applied in order. -/
theorem runEventTasks_network (lua : LuaState) (s : App) (k : Nat) :
    ∃ s2 : App, runEventTasks lua (s.eventOutQueue.length + k) s = some s2
      ∧ s2.network
          = { s.network with peers := (s.eventOutQueue.foldl registryAfter s.network.peers) } := by
  refine ⟨_, runEventTasks_eq lua s k, ?_⟩
  show (List.foldl (processEvent lua s.verbose) (s.emit Effect.lock) s.eventOutQueue).network = _
  rw [foldl_processEvent_network]
  rfl

/-- The payloads `runEventTasks` releases and the callbacks it defers. -/
theorem runEventTasks_released (lua : LuaState) (s : App) (k : Nat) :
    ∃ s2 : App, runEventTasks lua (s.eventOutQueue.length + k) s = some s2
      ∧ released s2.trace = released s.trace ++ s.eventOutQueue.filterMap (expectedRelease lua)
      ∧ s2.threadedLuaQueue
          = s.threadedLuaQueue ++ s.eventOutQueue.filterMap (expectedCallback lua) := by
  refine ⟨_, runEventTasks_eq lua s k, ?_, ?_⟩
  · show released ((List.foldl (processEvent lua s.verbose) (s.emit Effect.lock)
        s.eventOutQueue).trace ++ [Effect.unlock]) = _
    rw [released_append, foldl_processEvent_released]
    simp [App.emit, released]
  · show (List.foldl (processEvent lua s.verbose) (s.emit Effect.lock)
        s.eventOutQueue).threadedLuaQueue = _
    rw [foldl_processEvent_threadedLuaQueue]
    rfl

theorem PeerMap.find_erase_of_ne (m : PeerMap) (k k2 : Nat) (h : k2 ≠ k) :
    PeerMap.find (PeerMap.erase m k) k2 = PeerMap.find m k2 := by
  induction m with
  | nil => rfl
  | cons e rest ih =>
    obtain ⟨k', v'⟩ := e
    by_cases hk : k' = k
    · have hk2 : ¬ k' = k2 := fun h2 => h (h2.symm.trans hk)
      have herase : PeerMap.erase ((k', v') :: rest) k = PeerMap.erase rest k := by
        simp [PeerMap.erase, List.filter_cons, hk]
      rw [herase, ih]
      simp [PeerMap.find, hk2]
    · have herase : PeerMap.erase ((k', v') :: rest) k = (k', v') :: PeerMap.erase rest k := by
        simp [PeerMap.erase, List.filter_cons, hk]
      rw [herase]
      by_cases hk2 : k' = k2
      · simp [PeerMap.find, hk2]
      · simp [PeerMap.find, hk2, ih]

/-- On a server, whenever the Disconnect event of a peer carries an `outgoingPeerID` other
than the `incomingPeerID` its Connect event was stored under, the entry stored at Connect
is still in the registry after `runEventTasks` has processed both events. -/
theorem runEventTasks_stale_entry (lua : LuaState) (s : App) (k : Nat) (c d : ENetEvent)
    (hc : c.type = ENetEventType.CONNECT) (hd : d.type = ENetEventType.DISCONNECT)
    (hne : c.peer.incomingPeerID ≠ d.peer.outgoingPeerID)
    (hq : s.eventOutQueue = [(true, c), (true, d)]) :
    ∃ s2 : App, runEventTasks lua (s.eventOutQueue.length + k) s = some s2
      ∧ s2.network.peers.find c.peer.incomingPeerID = some c.peer.ptr := by
  obtain ⟨s2, hrun, hnet⟩ := runEventTasks_network lua s k
  refine ⟨s2, hrun, ?_⟩
  rw [hnet, hq]
  simp [registryAfter, hc, hd, PeerMap.find_erase_of_ne _ _ _ hne, PeerMap.find_assign_self]

/-- Claim C8 (fails on the code). On `connectDisconnectApp` (a server with an empty registry;
queued: the Connect event of `peerA`, whose `incomingPeerID` is `1` and `outgoingPeerID` is
`0`, then its Disconnect event) `runEventTasks` returns with the registry still holding the
peer under the id `1` it was inserted under: the Disconnect erased the key `0`, not that
same id, and the registry, which lacked the id, is not restored to its prior contents. -/
theorem runEventTasks_erases_other_id :
    ∃ s2 : App, runEventTasks quietLua 2 connectDisconnectApp = some s2
      ∧ s2.network.peers = [(1, 100)]
      ∧ s2.network.peers.find peerA.incomingPeerID = some peerA.ptr
      ∧ connectDisconnectApp.network.peers.find peerA.incomingPeerID = none
      ∧ s2.network.peers ≠ connectDisconnectApp.network.peers :=
  ⟨_, rfl, by decide, by decide, by decide, by decide⟩

theorem expectedRelease_receive (lua : LuaState) (t : Bool × ENetEvent)
    (h : t.2.type = ENetEventType.RECEIVE) :
    expectedRelease lua t = if handlerDeclared lua t then none else some t.2.packet := by
  simp [expectedRelease, h]

theorem expectedCallback_receive (lua : LuaState) (t : Bool × ENetEvent)
    (h : t.2.type = ENetEventType.RECEIVE) :
    expectedCallback lua t
      = if handlerDeclared lua t then some (receiveCallback lua t) else none := by
  obtain ⟨b, ev⟩ := t
  simp only at h
  cases b <;>
    simp only [expectedCallback, handlerDeclared, handlerFor, handlerArgs, receiveCallback, h] <;>
    split_ifs <;> simp_all

theorem filterMap_expectedRelease_receive (lua : LuaState) (l : List (Bool × ENetEvent))
    (h : ∀ t ∈ l, t.2.type = ENetEventType.RECEIVE) :
    l.filterMap (expectedRelease lua)
      = (l.filter (fun t => !handlerDeclared lua t)).map (fun t => t.2.packet) := by
  induction l with
  | nil => rfl
  | cons t rest ih =>
    have ht := expectedRelease_receive lua t (h t (List.mem_cons_self _ _))
    have ih2 := ih (fun x hx => h x (List.mem_cons_of_mem _ hx))
    cases hdcl : handlerDeclared lua t <;>
      simp [List.filterMap_cons, List.filter_cons, ht, hdcl, ih2]

theorem filterMap_expectedCallback_receive (lua : LuaState) (l : List (Bool × ENetEvent))
    (h : ∀ t ∈ l, t.2.type = ENetEventType.RECEIVE) :
    l.filterMap (expectedCallback lua)
      = (l.filter (handlerDeclared lua)).map (receiveCallback lua) := by
  induction l with
  | nil => rfl
  | cons t rest ih =>
    have ht := expectedCallback_receive lua t (h t (List.mem_cons_self _ _))
    have ih2 := ih (fun x hx => h x (List.mem_cons_of_mem _ hx))
    cases hdcl : handlerDeclared lua t <;>
      simp [List.filterMap_cons, List.filter_cons, ht, hdcl, ih2]

/-- Claim C9. For every queue of Receive events (of either role), `runEventTasks` returns
and disposes of each payload in exactly one way: the payloads handed to
`enet_packet_destroy` are, in push order, those of the events whose role has no
`OnPacketReceived` handler declared, once each; the callbacks added to the deferred queue
are, in push order, one per event whose role has the handler declared, with the arguments
`(channel, packet)`. With three Receive events and no handler declared (`threeReceivesApp`):
three releases, in push order, and no deferred callback. -/
theorem runEventTasks_receive :
    (∀ (lua : LuaState) (s : App) (k : Nat),
        (∀ t ∈ s.eventOutQueue, t.2.type = ENetEventType.RECEIVE) →
        ∃ s2 : App, runEventTasks lua (s.eventOutQueue.length + k) s = some s2
          ∧ released s2.trace = released s.trace ++
              (s.eventOutQueue.filter (fun t => !handlerDeclared lua t)).map
                (fun t => t.2.packet)
          ∧ s2.threadedLuaQueue = s.threadedLuaQueue ++
              (s.eventOutQueue.filter (handlerDeclared lua)).map (receiveCallback lua))
      ∧ ∃ s2 : App, runEventTasks quietLua 3 threeReceivesApp = some s2
          ∧ released s2.trace = [11, 12, 13]
          ∧ s2.threadedLuaQueue = [] := by
  refine ⟨?_, ⟨_, rfl, by decide, by decide⟩⟩
  intro lua s k h
  obtain ⟨s2, hrun, hrel, hq⟩ := runEventTasks_released lua s k
  refine ⟨s2, hrun, ?_, ?_⟩
  · rw [hrel, filterMap_expectedRelease_receive lua _ h]
  · rw [hq, filterMap_expectedCallback_receive lua _ h]

theorem runEventTasks_receive_witness :
    ∃ s2 : App, runEventTasks serverReceiveLua (twoRolesApp.eventOutQueue.length + 0)
          twoRolesApp = some s2
      ∧ released s2.trace = [12]
      ∧ s2.threadedLuaQueue = [({ ref := 3, valid := true },
          SolTable.create [LuaValue.number 1, LuaValue.packet 11 0])] := by
  obtain ⟨s2, h1, h2, h3⟩ := runEventTasks_receive.1 serverReceiveLua twoRolesApp 0
    (by decide)
  refine ⟨s2, h1, ?_, ?_⟩
  · rw [h2]; decide
  · rw [h3]; decide

/-! ## The render request queue -/

/-- With `mainCamera` the camera `1` and the active camera the camera `2`: a request for the
active camera `2` is queued, and a request for the camera `1`, which is not the active one,
is rejected. -/
theorem active_camera_not_rejected :
    otherActiveApp.activeCamera = 2
      ∧ (AddCameraToQueue otherActiveApp 2 3 true false).cameraQueue
          = [{ cam := 2, forward := 3, defaultRendering := true, renderGUI := false }]
      ∧ otherActiveApp.cameraQueue.length
          < (AddCameraToQueue otherActiveApp 2 3 true false).cameraQueue.length
      ∧ (1 : Ptr) ≠ otherActiveApp.activeCamera
      ∧ (AddCameraToQueue otherActiveApp 1 3 true false).cameraQueue = [] :=
  ⟨rfl, by decide, by decide, by decide, by decide⟩

/-- Claim C10 as amended. For every dispatcher state and every camera, `AddCameraToQueue`
called with a camera equal to the designated main camera (`mainCamera`) is rejected, the
state being unchanged; called with any other camera it appends exactly one request, the one
submitted, at the tail of the render request queue. In a state whose active camera is the
main camera the same holds with "active camera" in place of "main camera". -/
theorem AddCameraToQueue_main (s : App) (cam forward : Ptr) (defaultRendering renderGUI : Bool) :
    (cam = s.mainCamera → AddCameraToQueue s cam forward defaultRendering renderGUI = s)
      ∧ (cam ≠ s.mainCamera →
          AddCameraToQueue s cam forward defaultRendering renderGUI
            = { s with cameraQueue := s.cameraQueue ++
                [{ cam := cam, forward := forward, defaultRendering := defaultRendering,
                   renderGUI := renderGUI }] })
      ∧ (s.activeCamera = s.mainCamera →
          (cam = s.activeCamera →
            (AddCameraToQueue s cam forward defaultRendering renderGUI).cameraQueue
              = s.cameraQueue)
          ∧ (cam ≠ s.activeCamera →
            (AddCameraToQueue s cam forward defaultRendering renderGUI).cameraQueue
              = s.cameraQueue ++
                [{ cam := cam, forward := forward, defaultRendering := defaultRendering,
                   renderGUI := renderGUI }])) := by
  refine ⟨fun h => by simp [AddCameraToQueue, h], fun h => by simp [AddCameraToQueue, h], ?_⟩
  intro hact
  rw [hact]
  exact ⟨fun h => by simp [AddCameraToQueue, h], fun h => by simp [AddCameraToQueue, h]⟩

theorem AddCameraToQueue_main_witness :
    (1 : Ptr) = otherActiveApp.mainCamera
      ∧ AddCameraToQueue otherActiveApp 1 3 true false = otherActiveApp
      ∧ (2 : Ptr) ≠ otherActiveApp.mainCamera
      ∧ (AddCameraToQueue otherActiveApp 2 3 true false).cameraQueue.length
          = otherActiveApp.cameraQueue.length + 1
      ∧ mainActiveApp.activeCamera = mainActiveApp.mainCamera
      ∧ (AddCameraToQueue mainActiveApp 1 3 true false).cameraQueue = mainActiveApp.cameraQueue
      ∧ (AddCameraToQueue mainActiveApp 2 3 true false).cameraQueue
          = mainActiveApp.cameraQueue ++
              [{ cam := 2, forward := 3, defaultRendering := true, renderGUI := false }] := by
  have h := AddCameraToQueue_main otherActiveApp 2 3 true false
  refine ⟨rfl, (AddCameraToQueue_main otherActiveApp 1 3 true false).1 rfl, by decide, ?_, rfl,
    ((AddCameraToQueue_main mainActiveApp 1 3 true false).2.2 rfl).1 rfl,
    ((AddCameraToQueue_main mainActiveApp 2 3 true false).2.2 rfl).2 (by decide)⟩
  rw [h.2.1 (by decide)]
  rfl

/-! ## The render request drain -/

theorem guiDraws_append (a b : List Effect) : guiDraws (a ++ b) = guiDraws a + guiDraws b := by
  simp [guiDraws]

theorem GuiStep.guiRefl (s : App) : GuiStep s s :=
  ⟨[], by simp, by simp [guiDraws]⟩

theorem GuiStep.guiTrans {s s1 s2 : App} (h1 : GuiStep s s1) (h2 : GuiStep s1 s2) :
    GuiStep s s2 := by
  obtain ⟨es1, ht1, hb1⟩ := h1
  obtain ⟨es2, ht2, hb2⟩ := h2
  refine ⟨es1 ++ es2, by rw [ht2, ht1, List.append_assoc], ?_⟩
  rw [guiDraws_append]
  omega

theorem GuiStep.guiCongr {s s1 s2 : App} (h : GuiStep s s1) (ht : s2.trace = s1.trace)
    (hr : s2.renderedGUI = s1.renderedGUI) : GuiStep s s2 := by
  obtain ⟨es, ht1, hb1⟩ := h
  refine ⟨es, by rw [ht, ht1], ?_⟩
  simpa [unrendered, hr] using hb1

theorem GuiStep.guiEmit {s s1 : App} (h : GuiStep s s1) (e : Effect)
    (he : e.isGuiDraw = false) : GuiStep s (s1.emit e) := by
  refine h.guiTrans ⟨[e], rfl, ?_⟩
  have : unrendered (s1.emit e) = unrendered s1 := rfl
  simp [guiDraws, List.countP_cons, he, this]

theorem GuiStep.draw (s : App) (h : s.renderedGUI = false) :
    GuiStep s { s.emit Effect.guiDrawAll with renderedGUI := true } :=
  ⟨[Effect.guiDrawAll], rfl, by simp [guiDraws, Effect.isGuiDraw, unrendered, h]⟩

theorem setCameraMatrix_guiStep (s : App) (c : Ptr) : GuiStep s (setCameraMatrix s c).state := by
  unfold setCameraMatrix
  split_ifs
  · exact GuiStep.guiRefl s
  · exact (GuiStep.guiRefl s).guiEmit _ rfl

theorem renderRequest_guiStep (s : App) (c : CameraToQueue) :
    GuiStep s (renderRequest s c).state := by
  unfold renderRequest
  by_cases hc : c.cam = 0
  · simp only [hc, ne_eq, not_true_eq_false, if_false]
    exact GuiStep.guiRefl s
  · simp only [hc, ne_eq, not_false_eq_true, if_true]
    by_cases hg : (c.renderGUI && !s.renderedGUI) = true
    · simp only [hg, if_true]
      have : s.renderedGUI = false := by
        cases h : s.renderedGUI <;> simp_all
      exact GuiStep.draw s this
    · simp only [hg]
      have h1 : GuiStep s (setActiveCamera s c.cam) :=
        ((GuiStep.guiRefl s).guiEmit (Effect.setActiveCamera c.cam) rfl).guiCongr rfl rfl
      have h2 := h1.guiEmit (Effect.updateAbsolutePosition c.cam) rfl
      by_cases hf : c.forward = 0
      · simpa [hf, Run.state] using h2
      · have h3 := h2.guiEmit (Effect.updateAbsolutePosition c.forward) rfl
        have h4 := h3.guiEmit (Effect.setTarget c.cam c.forward) rfl
        cases hd : c.defaultRendering
        · simpa [hf, hd, Run.state] using h4.guiEmit Effect.effectsUpdate rfl
        · simpa [hf, hd, Run.state] using h4.guiEmit Effect.smgrDrawAll rfl

theorem Run.bind_guiStep {s : App} (r : Run App) (f : App → Run App)
    (hr : GuiStep s r.state) (hf : ∀ a, GuiStep a (f a).state) :
    GuiStep s (r.bind f).state := by
  cases r with
  | ok a => exact hr.guiTrans (hf a)
  | fault a => exact hr

theorem cameraTaskBody_guiStep (s : App) : GuiStep s (cameraTaskBody s).state := by
  unfold cameraTaskBody
  cases hq : s.cameraQueue with
  | nil => exact GuiStep.guiRefl s
  | cons c rest =>
    refine Run.bind_guiStep _ _ (Run.bind_guiStep _ _ (setCameraMatrix_guiStep s _)
      (fun a => renderRequest_guiStep a c)) (fun a => ?_)
    exact (GuiStep.guiRefl a).guiCongr rfl rfl

theorem cameraQueueEntry_guiStep (s : App) : GuiStep s (cameraQueueEntry s).state := by
  unfold cameraQueueEntry
  have h0 : GuiStep s (s.emit Effect.beginScene) := (GuiStep.guiRefl s).guiEmit _ rfl
  dsimp only
  split_ifs
  · refine Run.bind_guiStep _ _ (h0.guiTrans (setCameraMatrix_guiStep _ _)) (fun a => ?_)
    cases hl : a.legacyDrawing
    · simpa [hl, Run.state] using
        ((GuiStep.guiRefl a).guiEmit Effect.effectsUpdate rfl).guiEmit Effect.effectsSetClearColour rfl
    · simpa [hl, Run.state] using (GuiStep.guiRefl a).guiEmit Effect.smgrDrawAll rfl
  · exact h0

theorem whileLoopF_false {σ : Type} (cond : σ → Bool) (body : σ → Run σ) (fuel : Nat) (s : σ)
    (h : cond s = false) : whileLoopF cond body fuel s = some (Run.ok s) := by
  cases fuel <;> simp [whileLoopF, h]

theorem whileLoopF_true_succ {σ : Type} (cond : σ → Bool) (body : σ → Run σ) (fuel : Nat)
    (s : σ) (h : cond s = true) :
    whileLoopF cond body (fuel + 1) s =
      match body s with
      | Run.ok s1 => whileLoopF cond body fuel s1
      | Run.fault s1 => some (Run.fault s1) := by
  simp [whileLoopF, h]

theorem Run.bind_eq_ok {σ : Type} (r : Run σ) (f : σ → Run σ) (s2 : σ)
    (h : r.bind f = Run.ok s2) : ∃ a, r = Run.ok a ∧ f a = Run.ok s2 := by
  cases r with
  | ok a => exact ⟨a, rfl, h⟩
  | fault a => simp [Run.bind] at h

theorem setCameraMatrix_cameraQueue (s : App) (c : Ptr) :
    (setCameraMatrix s c).state.cameraQueue = s.cameraQueue := by
  unfold setCameraMatrix
  split_ifs <;> rfl

theorem renderRequest_cameraQueue (s : App) (c : CameraToQueue) :
    (renderRequest s c).state.cameraQueue = s.cameraQueue := by
  unfold renderRequest setActiveCamera
  dsimp only
  split_ifs <;> rfl

/-- An iteration of the loop of `HandleCameraQueue` that goes through removes the front
request. -/
theorem cameraTaskBody_cameraQueue (s s2 : App) (h : cameraTaskBody s = Run.ok s2) :
    s2.cameraQueue = s.cameraQueue.tail := by
  unfold cameraTaskBody at h
  cases hq : s.cameraQueue with
  | nil =>
    simp only [hq] at h
    injection h with h
    rw [← h, hq]
    rfl
  | cons c rest =>
    simp only [hq] at h
    obtain ⟨a, h1, h2⟩ := Run.bind_eq_ok _ _ _ h
    obtain ⟨b, h3, h4⟩ := Run.bind_eq_ok _ _ _ h1
    injection h2 with h2
    have e1 : b.cameraQueue = s.cameraQueue := by
      have := setCameraMatrix_cameraQueue s s.activeCamera
      rw [h3] at this
      exact this
    have e2 : a.cameraQueue = b.cameraQueue := by
      have := renderRequest_cameraQueue b c
      rw [h4] at this
      exact this
    rw [← h2]
    show a.cameraQueue.tail = _
    rw [e2, e1, hq]

/-- The loop of `HandleCameraQueue` ends within one iteration per queued request, by a fault
or with the queue empty, having drawn the GUI no more often than the flag allowed. -/
theorem cameraLoop_guiStep :
    ∀ (n : Nat) (s : App), s.cameraQueue.length ≤ n →
      ∃ r : Run App,
        whileLoopF (fun a => !a.cameraQueue.isEmpty) cameraTaskBody n s = some r
          ∧ GuiStep s r.state
          ∧ (r.isOk = true → r.state.cameraQueue = []) := by
  intro n
  induction n with
  | zero =>
    intro s hlen
    have hq : s.cameraQueue = [] := List.length_eq_zero.mp (Nat.le_zero.mp hlen)
    exact ⟨Run.ok s, whileLoopF_false _ _ _ _ (by simp [hq]), GuiStep.guiRefl s, fun _ => hq⟩
  | succ m ih =>
    intro s hlen
    cases hq : s.cameraQueue with
    | nil =>
      exact ⟨Run.ok s, whileLoopF_false _ _ _ _ (by simp [hq]), GuiStep.guiRefl s, fun _ => hq⟩
    | cons c rest =>
      rw [whileLoopF_true_succ _ _ _ _ (by simp [hq])]
      have hstep := cameraTaskBody_guiStep s
      cases hb : cameraTaskBody s with
      | fault a =>
        rw [hb] at hstep
        exact ⟨Run.fault a, rfl, hstep, fun h => by simp [Run.isOk] at h⟩
      | ok a =>
        rw [hb] at hstep
        have hqa : a.cameraQueue = rest := by
          rw [cameraTaskBody_cameraQueue s a hb, hq]
          rfl
        have hlen2 : a.cameraQueue.length ≤ m := by
          rw [hqa]
          rw [hq] at hlen
          simpa using hlen
        obtain ⟨r, hr, hg, hempty⟩ := ih a hlen2
        exact ⟨r, hr, hstep.guiTrans hg, hempty⟩

theorem cameraQueueEntry_cameraQueue (s : App) :
    (cameraQueueEntry s).state.cameraQueue = s.cameraQueue := by
  unfold cameraQueueEntry setCameraMatrix
  dsimp only
  split_ifs <;> first | rfl | (simp only [Run.bind]; split_ifs <;> rfl)

/-- A `HandleCameraQueue` drain ends, by a fault or by returning, having drawn the GUI no
more often than the `renderedGUI` flag allowed when it began. -/
theorem HandleCameraQueue_guiStep (s : App) (k : Nat) :
    ∃ r : Run App, HandleCameraQueue (s.cameraQueue.length + k) s = some r
      ∧ GuiStep s r.state := by
  unfold HandleCameraQueue
  have hentry := cameraQueueEntry_guiStep s
  have hqe := cameraQueueEntry_cameraQueue s
  cases he : cameraQueueEntry s with
  | fault a =>
    rw [he] at hentry
    exact ⟨Run.fault a, rfl, hentry⟩
  | ok a =>
    rw [he] at hentry hqe
    obtain ⟨r, hr, hg, _⟩ := cameraLoop_guiStep (s.cameraQueue.length + k) a (by
      have : a.cameraQueue = s.cameraQueue := hqe
      rw [this]
      omega)
    refine ⟨r.bind (fun s2 => Run.ok (setActiveCamera s2 s2.mainCamera)), by simp [hr], ?_⟩
    refine Run.bind_guiStep r _ (hentry.guiTrans hg) (fun b => ?_)
    exact ((GuiStep.guiRefl b).guiEmit (Effect.setActiveCamera b.mainCamera) rfl).guiCongr rfl rfl

/-- Claim C11. For every render request queue and every initial value of `renderedGUI`, one
`HandleCameraQueue` drain ends (it returns, or stops at a null dereference) within one loop
iteration per queued request, and the calls it has made by then, `es`, contain at most one
`guienv->drawAll()`, however many queued requests have `renderGUI` set, and none at all if
`renderedGUI` was set when the drain began. -/
theorem HandleCameraQueue_gui_once (s : App) (k : Nat) :
    ∃ (r : Run App) (es : List Effect),
      HandleCameraQueue (s.cameraQueue.length + k) s = some r
        ∧ r.state.trace = s.trace ++ es
        ∧ guiDraws es ≤ 1
        ∧ (s.renderedGUI = true → guiDraws es = 0) := by
  obtain ⟨r, hr, es, ht, hb⟩ := HandleCameraQueue_guiStep s k
  refine ⟨r, es, hr, ht, ?_, ?_⟩
  · have : unrendered s ≤ 1 := by
      unfold unrendered
      split_ifs <;> omega
    omega
  · intro hs
    have : unrendered s = 0 := by simp [unrendered, hs]
    omega

theorem HandleCameraQueue_gui_once_witness :
    guiRenderedApp.renderedGUI = true
      ∧ (∃ (r : Run App) (es : List Effect),
          HandleCameraQueue (guiRenderedApp.cameraQueue.length + 0) guiRenderedApp = some r
            ∧ r.state.trace = guiRenderedApp.trace ++ es
            ∧ guiDraws es = 0)
      ∧ ∃ r : Run App, HandleCameraQueue 3 threeGuiRequestsApp = some r
          ∧ guiDraws r.state.trace = 1 := by
  refine ⟨rfl, ?_, ⟨_, rfl, by decide⟩⟩
  obtain ⟨r, es, h1, h2, _, h4⟩ := HandleCameraQueue_gui_once guiRenderedApp 0
  exact ⟨r, es, h1, h2, h4 rfl⟩

/-- With the requests for X (camera `2`) and Y (camera `3`) queued in that order, both with
`renderGUI` set, the drain draws the GUI once for the request of X and then activates,
updates, aims and renders Y: none of the calls activates, updates or aims the camera X. -/
theorem camera_x_not_rendered :
    ∃ s2 : App, HandleCameraQueue 2 twoGuiRequestsApp = some (Run.ok s2)
      ∧ s2.trace =
          [Effect.beginScene, Effect.setCameraMatrix 1, Effect.smgrDrawAll,
           Effect.setCameraMatrix 1, Effect.guiDrawAll,
           Effect.setCameraMatrix 1, Effect.setActiveCamera 3,
           Effect.updateAbsolutePosition 3, Effect.updateAbsolutePosition 13,
           Effect.setTarget 3 13, Effect.smgrDrawAll,
           Effect.setActiveCamera 1]
      ∧ Effect.setActiveCamera 2 ∉ s2.trace
      ∧ Effect.updateAbsolutePosition 2 ∉ s2.trace
      ∧ Effect.setTarget 2 12 ∉ s2.trace :=
  ⟨_, rfl, by decide, by decide, by decide, by decide⟩

/-- Claim C12 as amended. For every two requests for non-null cameras X and Y queued in that
order, both with `renderGUI` set, while the GUI has not yet been rendered this frame (and
with a device, an active camera and a forward reference of Y that are not null),
`HandleCameraQueue` returns having drawn the GUI exactly once, for the request of X, which
makes no call on the camera X; the camera Y is activated, has its absolute transform
updated, is aimed at its forward reference and is rendered (default or effects pass per its
flag); the main camera is then made the active camera again and the queue is empty. -/
theorem HandleCameraQueue_two_gui_requests (s : App) (x y : CameraToQueue) (k : Nat)
    (hq : s.cameraQueue = [x, y]) (hx : x.cam ≠ 0) (hy : y.cam ≠ 0)
    (hxg : x.renderGUI = true) (hyg : y.renderGUI = true) (hgui : s.renderedGUI = false)
    (hact : s.activeCamera ≠ 0) (hdev : s.device ≠ 0) (hyf : y.forward ≠ 0) :
    ∃ s2 : App, HandleCameraQueue (k + 2) s = some (Run.ok s2)
      ∧ s2.trace = s.trace
          ++ ([Effect.beginScene, Effect.setCameraMatrix s.activeCamera]
            ++ (if s.legacyDrawing then [Effect.smgrDrawAll]
                else [Effect.effectsUpdate, Effect.effectsSetClearColour]))
          ++ [Effect.setCameraMatrix s.activeCamera, Effect.guiDrawAll]
          ++ [Effect.setCameraMatrix s.activeCamera, Effect.setActiveCamera y.cam,
              Effect.updateAbsolutePosition y.cam, Effect.updateAbsolutePosition y.forward,
              Effect.setTarget y.cam y.forward,
              (if y.defaultRendering then Effect.smgrDrawAll else Effect.effectsUpdate)]
          ++ [Effect.setActiveCamera s.mainCamera]
      ∧ s2.renderedGUI = true
      ∧ s2.activeCamera = s.mainCamera
      ∧ s2.cameraQueue = [] := by
  cases hl : s.legacyDrawing <;> cases hd : y.defaultRendering <;>
    simp [HandleCameraQueue, cameraQueueEntry, setCameraMatrix, whileLoopF, cameraTaskBody,
      renderRequest, setActiveCamera, Run.bind, App.emit, hq, hx, hy, hxg, hyg, hgui, hact,
      hdev, hyf, hl, hd, whileLoopF_false]

theorem HandleCameraQueue_two_gui_requests_witness :
    ∃ s2 : App, HandleCameraQueue (0 + 2) twoGuiRequestsApp = some (Run.ok s2)
      ∧ guiDraws s2.trace = 1
      ∧ Effect.setActiveCamera 3 ∈ s2.trace
      ∧ s2.renderedGUI = true
      ∧ s2.activeCamera = twoGuiRequestsApp.mainCamera
      ∧ s2.cameraQueue = [] := by
  obtain ⟨s2, h1, h2, h3, h4, h5⟩ := HandleCameraQueue_two_gui_requests twoGuiRequestsApp
    { cam := 2, forward := 12, defaultRendering := true, renderGUI := true }
    { cam := 3, forward := 13, defaultRendering := true, renderGUI := true } 0
    rfl (by decide) (by decide) rfl rfl rfl (by decide) (by decide) (by decide)
  refine ⟨s2, h1, ?_, ?_, h3, h4, h5⟩
  · rw [h2]; decide
  · rw [h2]; decide

/-! ## Traces of the drains -/

theorem TraceExt.refl (P : Effect → Prop) (s : App) : TraceExt P s s :=
  ⟨[], by simp, by simp⟩

theorem TraceExt.trans {P : Effect → Prop} {s s1 s2 : App} (h1 : TraceExt P s s1)
    (h2 : TraceExt P s1 s2) : TraceExt P s s2 := by
  obtain ⟨es1, ht1, hp1⟩ := h1
  obtain ⟨es2, ht2, hp2⟩ := h2
  refine ⟨es1 ++ es2, by rw [ht2, ht1, List.append_assoc], ?_⟩
  intro e he
  rcases List.mem_append.mp he with h | h
  · exact hp1 e h
  · exact hp2 e h

theorem TraceExt.congr {P : Effect → Prop} {s s1 s2 : App} (h : TraceExt P s s1)
    (ht : s2.trace = s1.trace) : TraceExt P s s2 := by
  obtain ⟨es, ht1, hp⟩ := h
  exact ⟨es, by rw [ht, ht1], hp⟩

theorem TraceExt.emit {P : Effect → Prop} {s s1 : App} (h : TraceExt P s s1) (e : Effect)
    (he : P e) : TraceExt P s (s1.emit e) :=
  h.trans ⟨[e], rfl, by simpa using he⟩

theorem TraceExt.mono {P Q : Effect → Prop} {s s1 : App} (h : TraceExt P s s1)
    (hpq : ∀ e, P e → Q e) : TraceExt Q s s1 := by
  obtain ⟨es, ht, hp⟩ := h
  exact ⟨es, ht, fun e he => hpq e (hp e he)⟩

theorem TraceExt.verboseMsg {P : Effect → Prop} {s s1 : App} (h : TraceExt P s s1)
    (v : Bool) (text : String) (he : P (Effect.sendMsg text MESSAGE_TYPE.NETWORK_VERBOSE)) :
    TraceExt P s (s1.verboseMsg v text) := by
  cases v
  · exact h
  · exact h.emit _ he

theorem heldCalls_true_of_no_lockOp (es : List Effect) (h : ∀ e ∈ es, e.isLockOp = false) :
    heldCalls true es = es ∧ lockedAfter true es = true := by
  induction es with
  | nil => exact ⟨rfl, rfl⟩
  | cons e rest ih =>
    have he := h e (List.mem_cons_self _ _)
    have ih2 := ih (fun x hx => h x (List.mem_cons_of_mem _ hx))
    cases e <;> simp_all [heldCalls, lockedAfter, Effect.isLockOp]

theorem heldCalls_false_of_no_lockOp (es : List Effect) (h : ∀ e ∈ es, e.isLockOp = false) :
    heldCalls false es = [] ∧ lockedAfter false es = false := by
  induction es with
  | nil => exact ⟨rfl, rfl⟩
  | cons e rest ih =>
    have he := h e (List.mem_cons_self _ _)
    have ih2 := ih (fun x hx => h x (List.mem_cons_of_mem _ hx))
    cases e <;> simp_all [heldCalls, lockedAfter, Effect.isLockOp]

theorem heldCalls_true_append_unlock (es : List Effect) (h : ∀ e ∈ es, e.isLockOp = false) :
    heldCalls true (es ++ [Effect.unlock]) = es
      ∧ lockedAfter true (es ++ [Effect.unlock]) = false := by
  induction es with
  | nil => exact ⟨rfl, rfl⟩
  | cons e rest ih =>
    have he := h e (List.mem_cons_self _ _)
    have ih2 := ih (fun x hx => h x (List.mem_cons_of_mem _ hx))
    cases e <;> simp_all [heldCalls, lockedAfter, Effect.isLockOp]

/-- A drain that takes the lock, makes calls other than lock and unlock, and releases the
lock: the calls made while the lock is held are exactly those in between. -/
theorem heldCalls_locked_section (es : List Effect) (h : ∀ e ∈ es, e.isLockOp = false) :
    heldCalls false (Effect.lock :: (es ++ [Effect.unlock])) = es
      ∧ lockedAfter false (Effect.lock :: (es ++ [Effect.unlock])) = false :=
  heldCalls_true_append_unlock es h

theorem processEvent_trace (lua : LuaState) (v : Bool) (s : App) (task : Bool × ENetEvent) :
    (processEvent lua v s task).trace
      = s.trace ++ (processEvent lua v { s with trace := [] } task).trace := by
  obtain ⟨b, ⟨ty, peer, ch, data, pkt⟩⟩ := task
  unfold processEvent serverEvent clientEvent addLuaTask App.verboseMsg App.emit setPeer erasePeer
  cases b <;> cases v <;> cases ty <;> dsimp only <;> split_ifs <;> simp

theorem processEvent_trace_quiet (lua : LuaState) (v : Bool) (s : App)
    (task : Bool × ENetEvent) :
    ∀ e ∈ (processEvent lua v { s with trace := [] } task).trace, e.isQuiet = true := by
  obtain ⟨b, ⟨ty, peer, ch, data, pkt⟩⟩ := task
  unfold processEvent serverEvent clientEvent addLuaTask App.verboseMsg App.emit setPeer erasePeer
  cases b <;> cases v <;> cases ty <;> dsimp only <;> split_ifs <;> simp [Effect.isQuiet]

/-- The processing of one event makes only console and payload-release calls. -/
theorem processEvent_traceExt (lua : LuaState) (v : Bool) (s : App)
    (task : Bool × ENetEvent) :
    TraceExt (fun e => e.isQuiet = true) s (processEvent lua v s task) :=
  ⟨_, processEvent_trace lua v s task, processEvent_trace_quiet lua v s task⟩

theorem foldl_processEvent_traceExt (lua : LuaState) (v : Bool)
    (l : List (Bool × ENetEvent)) (s : App) :
    TraceExt (fun e => e.isQuiet = true) s (l.foldl (processEvent lua v) s) := by
  induction l generalizing s with
  | nil => exact TraceExt.refl _ s
  | cons t rest ih =>
    simp only [List.foldl_cons]
    exact (processEvent_traceExt lua v s t).trans (ih _)

/-- The calls of a `runEventTasks` drain: the lock, console and payload-release calls, the
unlock. -/
theorem runEventTasks_trace (lua : LuaState) (s : App) (k : Nat) :
    ∃ (s2 : App) (es : List Effect),
      runEventTasks lua (s.eventOutQueue.length + k) s = some s2
        ∧ s2.trace = s.trace ++ (Effect.lock :: (es ++ [Effect.unlock]))
        ∧ ∀ e ∈ es, e.isQuiet = true := by
  obtain ⟨es, ht, hp⟩ :=
    foldl_processEvent_traceExt lua s.verbose s.eventOutQueue (s.emit Effect.lock)
  refine ⟨_, es, runEventTasks_eq lua s k, ?_, hp⟩
  show (List.foldl (processEvent lua s.verbose) (s.emit Effect.lock) s.eventOutQueue).trace
    ++ [Effect.unlock] = _
  rw [ht]
  simp [App.emit]

theorem end_traceExt (s : App) : TraceExt (fun e => e.isScriptPhase = true) s (end_ s) := by
  cases h : s.didEnd
  · refine ⟨_, end_trace_of_not_didEnd s h, ?_⟩
    cases s.doOutput <;> by_cases hd : s.device = 0 <;> simp [Effect.isScriptPhase, hd]
  · rw [end_of_didEnd s h]
    exact TraceExt.refl _ s

/-- The processing of one deferred task makes only script calls and calls of the error
report and shutdown sequence. -/
theorem processLuaTask_traceExt (lua : LuaState) (s : App) (task : SolFunction × SolTable) :
    TraceExt (fun e => e.isScriptPhase = true) s (processLuaTask lua s task) := by
  cases hv : task.1.valid
  · rw [processLuaTask_of_invalid lua s task hv]
    exact TraceExt.refl _ s
  · have h1 : TraceExt (fun e => e.isScriptPhase = true) s
        (s.emit (Effect.invoke task.1.ref (collectArgs task.2))) :=
      (TraceExt.refl _ s).emit _ rfl
    cases hc : lua.call task.1.ref (collectArgs task.2) with
    | none =>
      rw [processLuaTask_of_return lua s task hv hc]
      exact h1
    | some err =>
      rw [processLuaTask_of_raise lua s task err hv hc]
      unfold luaTaskCatch
      dsimp only
      refine TraceExt.trans ?_ (end_traceExt _)
      have h2 : TraceExt (fun e => e.isScriptPhase = true) s
          { s.emit (Effect.invoke task.1.ref (collectArgs task.2)) with doOutput := true } :=
        h1.congr rfl
      exact ((h2.emit (Effect.sendMsg err MESSAGE_TYPE.WARNING) rfl).emit
        Effect.writeOutput rfl).emit
        (Effect.messageBox ("Lime encountered an error:\n" ++ err)) rfl

theorem foldl_processLuaTask_traceExt (lua : LuaState) (l : List (SolFunction × SolTable))
    (s : App) :
    TraceExt (fun e => e.isScriptPhase = true) s (l.foldl (processLuaTask lua) s) := by
  induction l generalizing s with
  | nil => exact TraceExt.refl _ s
  | cons t rest ih =>
    simp only [List.foldl_cons]
    exact (processLuaTask_traceExt lua s t).trans (ih _)

/-- The calls of a `runLuaTasks` drain: script calls and calls of the error report and
shutdown sequence. -/
theorem runLuaTasks_trace (lua : LuaState) (s : App) (k : Nat) :
    ∃ (s2 : App) (es : List Effect),
      runLuaTasks lua (s.threadedLuaQueue.length + k) s = some s2
        ∧ s2.trace = s.trace ++ es
        ∧ ∀ e ∈ es, e.isScriptPhase = true := by
  obtain ⟨es, ht, hp⟩ := foldl_processLuaTask_traceExt lua s.threadedLuaQueue s
  exact ⟨_, es, luaLoop_eq lua k s.threadedLuaQueue s rfl, ht, hp⟩

/-! ## The registry under the packet drain -/

theorem PeerMap.find_assign_of_ne (m : PeerMap) (k k2 : Nat) (v : Ptr) (h : k2 ≠ k) :
    PeerMap.find (PeerMap.assign m k v) k2 = PeerMap.find m k2 := by
  induction m with
  | nil => simp [PeerMap.assign, PeerMap.find, Ne.symm h]
  | cons e rest ih =>
    obtain ⟨k', v'⟩ := e
    by_cases hk : k' = k
    · subst hk
      simp [PeerMap.assign, PeerMap.find, Ne.symm h]
    · by_cases hk2 : k' = k2
      · subst hk2
        simp [PeerMap.assign, PeerMap.find, h]
      · simp [PeerMap.assign, PeerMap.find, hk, hk2, ih]

/-- A non-null pointer read with `m[k]` is the one stored under `k`. -/
theorem PeerMap.find_of_index_ne_zero (m : PeerMap) (k : Nat)
    (h : (PeerMap.index m k).1 ≠ 0) : PeerMap.find m k = some (PeerMap.index m k).1 := by
  unfold PeerMap.index at h ⊢
  cases hf : PeerMap.find m k with
  | some v => simp
  | none => simp [hf] at h

/-- The map left by `m[k]` stores no non-null pointer that `m` did not store. -/
theorem PeerMap.find_index_snd (m : PeerMap) (k k2 : Nat) (v : Ptr)
    (h : PeerMap.find (PeerMap.index m k).2 k2 = some v) (hv : v ≠ 0) :
    PeerMap.find m k2 = some v := by
  unfold PeerMap.index at h
  cases hf : PeerMap.find m k with
  | some w =>
    simp only [hf] at h
    exact h
  | none =>
    simp only [hf] at h
    by_cases hk : k2 = k
    · subst hk
      rw [PeerMap.find_assign_self] at h
      injection h with h
      exact absurd h.symm hv
    · rwa [PeerMap.find_assign_of_ne m k k2 0 hk] at h


theorem sendCallOk_setFlags (s : App) (p : Ptr) (fl : Nat) :
    SendCallOk s (Effect.setFlags p fl) :=
  ⟨rfl, fun _ _ _ h => by cases h⟩

theorem sendCallOk_hostBroadcast (s : App) (h : Ptr) (c : Nat) (p : Ptr) :
    SendCallOk s (Effect.hostBroadcast h c p) :=
  ⟨rfl, fun _ _ _ h => by cases h⟩

theorem sendCallOk_hostFlush (s : App) (h : Ptr) : SendCallOk s (Effect.hostFlush h) :=
  ⟨rfl, fun _ _ _ h => by cases h⟩

theorem sendCallOk_sendMsg (s : App) (text : String) (ty : MESSAGE_TYPE) :
    SendCallOk s (Effect.sendMsg text ty) :=
  ⟨rfl, fun _ _ _ h => by cases h⟩

theorem sendCallOk_peerSend (s : App) (peer : Ptr) (c : Nat) (p : Ptr)
    (h : SendTargetOk s peer) : SendCallOk s (Effect.peerSend peer c p) :=
  ⟨rfl, fun _ _ _ he => by cases he; exact h⟩

theorem TraceExt.popPacket {P : Effect → Prop} {s a : App} (h : TraceExt P s a) :
    TraceExt P s (popPacket a) :=
  h.congr rfl

/-- One iteration of the loop of `runPacketToSend` leaves the registry as it is, adds no
non-null pointer to the local copy, and sends only to peers fixed when the drain began. -/
theorem packetTaskBody_inv (s : App) (v : Bool) (st : SendLoop)
    (hnet : st.app.network = s.network)
    (hpeers : ∀ k w, st.peers.find k = some w → w ≠ 0 → s.network.peers.find k = some w) :
    (packetTaskBody v st).app.network = s.network
      ∧ (∀ k w, (packetTaskBody v st).peers.find k = some w → w ≠ 0 →
          s.network.peers.find k = some w)
      ∧ TraceExt (SendCallOk s) st.app (packetTaskBody v st).app := by
  unfold packetTaskBody
  cases hq : st.app.packetOutQueue with
  | nil => exact ⟨hnet, hpeers, TraceExt.refl _ _⟩
  | cons task rest =>
    dsimp only
    generalize (if task.tcp = true then ENET_PACKET_FLAG_RELIABLE
      else ENET_PACKET_FLAG_UNRELIABLE_FRAGMENT) = fl
    have base : TraceExt (SendCallOk s) st.app (st.app.emit (Effect.setFlags task.p fl)) :=
      (TraceExt.refl _ _).emit _ (sendCallOk_setFlags s _ _)
    have hpeers2 : ∀ k w,
        (PeerMap.index st.peers (toPeerKey task.peerID)).2.find k = some w → w ≠ 0 →
          s.network.peers.find k = some w :=
      fun k w h hw => hpeers k w (PeerMap.find_index_snd _ _ _ _ h hw) hw
    split_ifs
    · rename_i h1 h2
      refine ⟨by simpa [popPacket, verboseMsg_network, App.emit] using hnet, hpeers, ?_⟩
      exact (((base.emit _ (sendCallOk_hostBroadcast s _ _ _)).emit _
        (sendCallOk_hostFlush s _)).verboseMsg v _ (sendCallOk_sendMsg s _ _)).popPacket
    · rename_i h1 h2 h3 h4
      refine ⟨by simpa [verboseMsg_network, App.emit] using hnet, hpeers2, ?_⟩
      exact base.verboseMsg v _ (sendCallOk_sendMsg s _ _)
    · rename_i h1 h2 h3 h4
      refine ⟨by simpa [popPacket, verboseMsg_network, App.emit] using hnet, hpeers2, ?_⟩
      have htarget : SendTargetOk s (PeerMap.index st.peers (toPeerKey task.peerID)).1 :=
        ⟨h4, Or.inr ⟨toPeerKey task.peerID,
          hpeers _ _ (PeerMap.find_of_index_ne_zero _ _ h4) h4⟩⟩
      exact (((base.emit _ (sendCallOk_peerSend s _ _ _ htarget)).emit _
        (sendCallOk_hostFlush s _)).verboseMsg v _ (sendCallOk_sendMsg s _ _)).popPacket
    · exact ⟨hnet, hpeers, base⟩
    · rename_i h1 h2 h3 h4 h5
      refine ⟨by simpa [popPacket, verboseMsg_network, App.emit] using hnet, hpeers, ?_⟩
      have htarget : SendTargetOk s (st.app.emit (Effect.setFlags task.p fl)).network.peer :=
        ⟨h5, Or.inl (congrArg NetworkHandler.peer hnet)⟩
      exact (((base.emit _ (sendCallOk_peerSend s _ _ _ htarget)).emit _
        (sendCallOk_hostFlush s _)).verboseMsg v _ (sendCallOk_sendMsg s _ _)).popPacket
    · exact ⟨hnet, hpeers, base.popPacket⟩
    · exact ⟨hnet, hpeers, (TraceExt.refl _ _).popPacket⟩

/-- A loop that finishes has run its body some number of times. -/
theorem whileLoop_some_iterate {σ : Type} (cond : σ → Bool) (body : σ → σ) :
    ∀ (fuel : Nat) (s t : σ), whileLoop cond body fuel s = some t → ∃ n, t = body^[n] s := by
  intro fuel
  induction fuel with
  | zero =>
    intro s t h
    by_cases hc : cond s = true
    · simp [whileLoop, hc] at h
    · simp [whileLoop, hc] at h
      exact ⟨0, h.symm⟩
  | succ m ih =>
    intro s t h
    by_cases hc : cond s = true
    · rw [whileLoop_true_succ cond body m s hc] at h
      obtain ⟨n, hn⟩ := ih _ _ h
      exact ⟨n + 1, by rw [hn, Function.iterate_succ_apply]⟩
    · simp [whileLoop, hc] at h
      exact ⟨0, h.symm⟩

/-- After any number of iterations of the loop of `runPacketToSend` the registry is as the
drain found it, the local copy holds no non-null pointer the registry did not hold, and the
calls made since the lock was taken are calls of the loop, the sends going to peers fixed
when the drain began. -/
theorem iterate_packetTaskBody_inv (s : App) (n : Nat) :
    ((packetTaskBody s.verbose)^[n] (sendLoopInit s)).app.network = s.network
      ∧ (∀ k w, ((packetTaskBody s.verbose)^[n] (sendLoopInit s)).peers.find k = some w →
          w ≠ 0 → s.network.peers.find k = some w)
      ∧ TraceExt (SendCallOk s) (sendLoopInit s).app
          ((packetTaskBody s.verbose)^[n] (sendLoopInit s)).app := by
  induction n with
  | zero => exact ⟨rfl, fun k w h _ => h, TraceExt.refl _ _⟩
  | succ m ih =>
    rw [Function.iterate_succ_apply']
    obtain ⟨h1, h2, h3⟩ := ih
    obtain ⟨g1, g2, g3⟩ := packetTaskBody_inv s s.verbose _ h1 h2
    exact ⟨g1, g2, h3.trans g3⟩

theorem sendTargets_of_sendCallOk (s : App) (es : List Effect)
    (h : ∀ e ∈ es, SendCallOk s e) : ∀ p ∈ sendTargets es, SendTargetOk s p := by
  intro p hp
  unfold sendTargets at hp
  obtain ⟨e, he, hm⟩ := List.mem_filterMap.mp hp
  cases e <;> simp at hm
  case peerSend peer c q =>
    subst hm
    exact (h _ he).2 _ _ _ rfl

theorem isLockOp_of_sendCallOk (s : App) (e : Effect) (h : SendCallOk s e) :
    e.isLockOp = false := by
  obtain ⟨h1, _⟩ := h
  cases e <;> simp_all [Effect.isSendPhase, Effect.isLockOp]

/-- The state `runPacketToSend` returns, when it returns: the registry unchanged, the trace
grown by the lock, calls of the loop, and the unlock. -/
theorem runPacketToSend_some (fuel : Nat) (s s2 : App) (h : runPacketToSend fuel s = some s2) :
    s2.network = s.network
      ∧ ∃ es : List Effect, s2.trace = s.trace ++ (Effect.lock :: (es ++ [Effect.unlock]))
          ∧ ∀ e ∈ es, SendCallOk s e := by
  unfold runPacketToSend at h
  simp only [Option.map_eq_some'] at h
  obtain ⟨st, hst, hs2⟩ := h
  obtain ⟨n, hn⟩ := whileLoop_some_iterate _ _ _ _ _ hst
  obtain ⟨h1, _, es, ht, hp⟩ := iterate_packetTaskBody_inv s n
  rw [← hn] at h1 ht
  subst hs2
  refine ⟨h1, es, ?_, hp⟩
  show st.app.trace ++ [Effect.unlock] = _
  rw [ht]
  simp [sendLoopInit, App.emit]

/-- Claim C15. `runPacketToSend` never changes the peer registry: for every registry and
outbound queue, after any number `n` of iterations of its loop (packets for absent peers
included) the registry, keys and handles, is the one the drain began with, the null entries
that `peers[task.peerID]` inserts going to the local copy `peers` only; and every peer that
`enet_peer_send` has been called on is a non-null handle held by the registry (or the upstream
connection) when the drain began. The same holds for the state the routine returns. -/
theorem runPacketToSend_registry_unchanged (s : App) :
    (∀ n : Nat,
        ((packetTaskBody s.verbose)^[n] (sendLoopInit s)).app.network.peers = s.network.peers
          ∧ ((packetTaskBody s.verbose)^[n] (sendLoopInit s)).app.network = s.network
          ∧ ∃ es : List Effect,
              ((packetTaskBody s.verbose)^[n] (sendLoopInit s)).app.trace
                = s.trace ++ (Effect.lock :: es)
              ∧ ∀ p ∈ sendTargets es, SendTargetOk s p)
      ∧ ∀ (fuel : Nat) (s2 : App), runPacketToSend fuel s = some s2 →
          s2.network.peers = s.network.peers
            ∧ s2.network = s.network
            ∧ ∃ es : List Effect,
                s2.trace = s.trace ++ (Effect.lock :: (es ++ [Effect.unlock]))
                ∧ ∀ p ∈ sendTargets es, SendTargetOk s p := by
  constructor
  · intro n
    obtain ⟨h1, _, es, ht, hp⟩ := iterate_packetTaskBody_inv s n
    refine ⟨by rw [h1], h1, es, ?_, sendTargets_of_sendCallOk s es hp⟩
    rw [ht]
    simp [sendLoopInit, App.emit]
  · intro fuel s2 h
    obtain ⟨h1, es, ht, hp⟩ := runPacketToSend_some fuel s s2 h
    exact ⟨by rw [h1], h1, es, ht, sendTargets_of_sendCallOk s es hp⟩

theorem runPacketToSend_registry_unchanged_witness :
    (∃ s2 : App, runPacketToSend 1 onePacketApp = some s2
        ∧ s2.network.peers = [(10, 100)]
        ∧ sendTargets s2.trace = [100])
      ∧ ((packetTaskBody false)^[3] (sendLoopInit sendThenAbsentApp)).app.network.peers
          = [(10, 100)]
      ∧ ((packetTaskBody false)^[3] (sendLoopInit sendThenAbsentApp)).peers
          = [(10, 100), (5, 0)]
      ∧ sendTargets ((packetTaskBody false)^[3] (sendLoopInit sendThenAbsentApp)).app.trace
          = [100] := by
  refine ⟨⟨_, rfl, ?_, by decide⟩, ?_, by decide, by decide⟩
  · exact ((runPacketToSend_registry_unchanged onePacketApp).2 1 _ rfl).1
  · exact ((runPacketToSend_registry_unchanged sendThenAbsentApp).1 3).1

/-! ## The lock -/

theorem isLockOp_of_isQuiet (e : Effect) (h : e.isQuiet = true) : e.isLockOp = false := by
  cases e <;> simp_all [Effect.isQuiet, Effect.isLockOp]

theorem isLockOp_of_isScriptPhase (e : Effect) (h : e.isScriptPhase = true) :
    e.isLockOp = false := by
  cases e <;> simp_all [Effect.isScriptPhase, Effect.isLockOp]

theorem not_io_of_isQuiet (e : Effect) (h : e.isQuiet = true) :
    e.isInvoke = false ∧ e.isTransport = false := by
  cases e <;> simp_all [Effect.isQuiet, Effect.isInvoke, Effect.isTransport]

theorem transportCalls_locked_section (es : List Effect) :
    transportCalls (Effect.lock :: (es ++ [Effect.unlock])) = transportCalls es := by
  simp [transportCalls, List.filter_cons, Effect.isTransport]

/-- With one Broadcast packet queued (`broadcastApp`), `runPacketToSend` calls
`enet_host_broadcast` and `enet_host_flush` between its `lock()` and its `unlock()`. -/
theorem lock_held_across_send :
    ∃ s2 : App, runPacketToSend 1 broadcastApp = some s2
      ∧ s2.trace = [Effect.lock, Effect.setFlags 7 1, Effect.hostBroadcast 1 255 7,
          Effect.hostFlush 1, Effect.unlock]
      ∧ heldCalls false s2.trace
          = [Effect.setFlags 7 1, Effect.hostBroadcast 1 255 7, Effect.hostFlush 1]
      ∧ ¬ ∀ e ∈ heldCalls false s2.trace, e.isInvoke = false ∧ e.isTransport = false :=
  ⟨_, rfl, by decide, by decide, by decide⟩

/-- Claim C14 as amended. Every `runEventTasks` drain returns having made, between its
`lock()` and its `unlock()`, no script call and no transport send, broadcast or flush, and
with the lock released. Every `runLuaTasks` drain returns without having taken or released
the lock. Whenever `runPacketToSend` returns it has released the lock, and every transport
send, broadcast and flush call it made was made while it held the lock. -/
theorem lock_discipline :
    (∀ (lua : LuaState) (s : App) (k : Nat), ∃ (s2 : App) (es : List Effect),
        runEventTasks lua (s.eventOutQueue.length + k) s = some s2
          ∧ s2.trace = s.trace ++ es
          ∧ (∀ e ∈ heldCalls false es, e.isInvoke = false ∧ e.isTransport = false)
          ∧ lockedAfter false es = false)
      ∧ (∀ (lua : LuaState) (s : App) (k : Nat), ∃ (s2 : App) (es : List Effect),
        runLuaTasks lua (s.threadedLuaQueue.length + k) s = some s2
          ∧ s2.trace = s.trace ++ es
          ∧ (∀ e ∈ es, e.isLockOp = false)
          ∧ heldCalls false es = []
          ∧ lockedAfter false es = false)
      ∧ ∀ (fuel : Nat) (s s2 : App), runPacketToSend fuel s = some s2 →
        ∃ es : List Effect, s2.trace = s.trace ++ es
          ∧ transportCalls (heldCalls false es) = transportCalls es
          ∧ lockedAfter false es = false := by
  refine ⟨?_, ?_, ?_⟩
  · intro lua s k
    obtain ⟨s2, es, hrun, ht, hq⟩ := runEventTasks_trace lua s k
    have hsec := heldCalls_locked_section es (fun e he => isLockOp_of_isQuiet e (hq e he))
    refine ⟨s2, _, hrun, ht, ?_, hsec.2⟩
    rw [hsec.1]
    exact fun e he => not_io_of_isQuiet e (hq e he)
  · intro lua s k
    obtain ⟨s2, es, hrun, ht, hp⟩ := runLuaTasks_trace lua s k
    have hno : ∀ e ∈ es, e.isLockOp = false :=
      fun e he => isLockOp_of_isScriptPhase e (hp e he)
    have hheld := heldCalls_false_of_no_lockOp es hno
    exact ⟨s2, es, hrun, ht, hno, hheld.1, hheld.2⟩
  · intro fuel s s2 h
    obtain ⟨_, es, ht, hp⟩ := runPacketToSend_some fuel s s2 h
    have hsec := heldCalls_locked_section es (fun e he => isLockOp_of_sendCallOk s e (hp e he))
    refine ⟨_, ht, ?_, hsec.2⟩
    rw [hsec.1, transportCalls_locked_section]

theorem lock_discipline_witness :
    (∃ es : List Effect,
        (∃ s2 : App, runPacketToSend 1 broadcastApp = some s2
          ∧ s2.trace = broadcastApp.trace ++ es)
        ∧ transportCalls (heldCalls false es) = transportCalls es
        ∧ lockedAfter false es = false)
      ∧ ∃ (s2 : App) (es : List Effect),
        runEventTasks quietLua (threeReceivesApp.eventOutQueue.length + 0) threeReceivesApp
            = some s2
          ∧ s2.trace = threeReceivesApp.trace ++ es
          ∧ (∀ e ∈ heldCalls false es, e.isInvoke = false ∧ e.isTransport = false)
          ∧ lockedAfter false es = false := by
  refine ⟨?_, lock_discipline.1 quietLua threeReceivesApp 0⟩
  obtain ⟨es, h1, h2, h3⟩ := lock_discipline.2.2 1 broadcastApp _ rfl
  exact ⟨es, ⟨_, rfl, h1⟩, h2, h3⟩

/-! ## The order of the phases of a tick -/

theorem whileLoopF_rel {σ : Type} (cond : σ → Bool) (body : σ → Run σ) (Rel : σ → σ → Prop)
    (hrefl : ∀ s, Rel s s) (htrans : ∀ a b c, Rel a b → Rel b c → Rel a c)
    (hbody : ∀ s, Rel s (body s).state) :
    ∀ (fuel : Nat) (s : σ) (r : Run σ), whileLoopF cond body fuel s = some r →
      Rel s r.state := by
  intro fuel
  induction fuel with
  | zero =>
    intro s r h
    by_cases hc : cond s = true
    · simp [whileLoopF, hc] at h
    · simp [whileLoopF, hc] at h
      subst h
      exact hrefl s
  | succ m ih =>
    intro s r h
    by_cases hc : cond s = true
    · rw [whileLoopF_true_succ cond body m s hc] at h
      have hb := hbody s
      cases hbs : body s with
      | ok a =>
        rw [hbs] at h hb
        exact htrans _ _ _ hb (ih a r h)
      | fault a =>
        rw [hbs] at h hb
        simp only [Option.some.injEq] at h
        subst h
        exact hb
    · simp [whileLoopF, hc] at h
      subst h
      exact hrefl s

theorem Run.bind_traceExt {P : Effect → Prop} {s : App} (r : Run App) (f : App → Run App)
    (hr : TraceExt P s r.state) (hf : ∀ a, TraceExt P a (f a).state) :
    TraceExt P s (r.bind f).state := by
  cases r with
  | ok a => exact hr.trans (hf a)
  | fault a => exact hr

theorem renderExt_refl (s : App) : TraceExt (fun e => e.isRender = true) s s :=
  TraceExt.refl _ s

theorem setCameraMatrix_traceExt (s : App) (c : Ptr) :
    TraceExt (fun e => e.isRender = true) s (setCameraMatrix s c).state := by
  unfold setCameraMatrix
  split_ifs
  · exact renderExt_refl s
  · exact (renderExt_refl s).emit _ rfl

theorem renderRequest_traceExt (s : App) (c : CameraToQueue) :
    TraceExt (fun e => e.isRender = true) s (renderRequest s c).state := by
  unfold renderRequest
  by_cases hc : c.cam = 0
  · simp only [hc, ne_eq, not_true_eq_false, if_false]
    exact renderExt_refl s
  · simp only [hc, ne_eq, not_false_eq_true, if_true]
    by_cases hg : (c.renderGUI && !s.renderedGUI) = true
    · simp only [hg, if_true]
      exact ((renderExt_refl s).emit Effect.guiDrawAll rfl).congr rfl
    · simp only [hg]
      have h1 : TraceExt (fun e => e.isRender = true) s (setActiveCamera s c.cam) :=
        ((renderExt_refl s).emit (Effect.setActiveCamera c.cam) rfl).congr rfl
      have h2 := h1.emit (Effect.updateAbsolutePosition c.cam) rfl
      by_cases hf : c.forward = 0
      · simpa [hf, Run.state] using h2
      · have h3 := h2.emit (Effect.updateAbsolutePosition c.forward) rfl
        have h4 := h3.emit (Effect.setTarget c.cam c.forward) rfl
        cases hd : c.defaultRendering
        · simpa [hf, hd, Run.state] using h4.emit Effect.effectsUpdate rfl
        · simpa [hf, hd, Run.state] using h4.emit Effect.smgrDrawAll rfl

theorem cameraTaskBody_traceExt (s : App) :
    TraceExt (fun e => e.isRender = true) s (cameraTaskBody s).state := by
  unfold cameraTaskBody
  cases hq : s.cameraQueue with
  | nil => exact renderExt_refl s
  | cons c rest =>
    refine Run.bind_traceExt _ _ (Run.bind_traceExt _ _ (setCameraMatrix_traceExt s _)
      (fun a => renderRequest_traceExt a c)) (fun a => ?_)
    exact (renderExt_refl a).congr rfl

theorem cameraQueueEntry_traceExt (s : App) :
    TraceExt (fun e => e.isRender = true) (s.emit Effect.beginScene)
      (cameraQueueEntry s).state := by
  unfold cameraQueueEntry
  dsimp only
  split_ifs
  · refine Run.bind_traceExt _ _ (setCameraMatrix_traceExt _ _) (fun a => ?_)
    cases hl : a.legacyDrawing
    · simpa [hl, Run.state] using
        ((renderExt_refl a).emit Effect.effectsUpdate rfl).emit Effect.effectsSetClearColour rfl
    · simpa [hl, Run.state] using (renderExt_refl a).emit Effect.smgrDrawAll rfl
  · exact renderExt_refl _

/-- A `HandleCameraQueue` drain calls `beginScene` first and, from then on, only the
renderer, the scene manager and the GUI environment. -/
theorem HandleCameraQueue_traceExt (fuel : Nat) (s : App) (r : Run App)
    (h : HandleCameraQueue fuel s = some r) :
    TraceExt (fun e => e.isRender = true) (s.emit Effect.beginScene) r.state := by
  unfold HandleCameraQueue at h
  have hentry := cameraQueueEntry_traceExt s
  cases he : cameraQueueEntry s with
  | fault a =>
    rw [he] at h hentry
    simp only [Option.some.injEq] at h
    subst h
    exact hentry
  | ok a =>
    rw [he] at h hentry
    simp only [Option.map_eq_some'] at h
    obtain ⟨r0, hr0, hr⟩ := h
    have hloop := whileLoopF_rel _ cameraTaskBody (TraceExt (fun e => e.isRender = true))
      renderExt_refl (fun _ _ _ h1 h2 => h1.trans h2) cameraTaskBody_traceExt fuel a r0 hr0
    subst hr
    refine Run.bind_traceExt r0 _ (hentry.trans hloop) (fun b => ?_)
    exact ((renderExt_refl b).emit (Effect.setActiveCamera b.mainCamera) rfl).congr rfl

/-- A loop that finishes within two bounds finishes in the same state. -/
theorem whileLoop_some_unique {σ : Type} (cond : σ → Bool) (body : σ → σ) :
    ∀ (f1 f2 : Nat) (s t1 t2 : σ), whileLoop cond body f1 s = some t1 →
      whileLoop cond body f2 s = some t2 → t1 = t2 := by
  intro f1
  induction f1 with
  | zero =>
    intro f2 s t1 t2 h1 h2
    by_cases hc : cond s = true
    · simp [whileLoop, hc] at h1
    · have hc2 : cond s = false := by simpa using hc
      rw [whileLoop_false cond body _ s hc2] at h1 h2
      exact (Option.some.inj h1).symm.trans (Option.some.inj h2)
  | succ m ih =>
    intro f2 s t1 t2 h1 h2
    by_cases hc : cond s = true
    · cases f2 with
      | zero => simp [whileLoop, hc] at h2
      | succ n =>
        rw [whileLoop_true_succ cond body _ s hc] at h1 h2
        exact ih n _ t1 t2 h1 h2
    · have hc2 : cond s = false := by simpa using hc
      rw [whileLoop_false cond body _ s hc2] at h1 h2
      exact (Option.some.inj h1).symm.trans (Option.some.inj h2)

/-- The calls of a `runEventTasks` drain that returns, whatever the bound it ran under. -/
theorem runEventTasks_some_trace (lua : LuaState) (fuel : Nat) (s b : App)
    (h : runEventTasks lua fuel s = some b) :
    ∃ es : List Effect, b.trace = s.trace ++ (Effect.lock :: (es ++ [Effect.unlock]))
      ∧ ∀ e ∈ es, e.isQuiet = true := by
  obtain ⟨s2, es, hrun, ht, hq⟩ := runEventTasks_trace lua s 0
  refine ⟨es, ?_, hq⟩
  unfold runEventTasks at h hrun
  simp only [Option.map_eq_some'] at h hrun
  obtain ⟨x, hx, hxb⟩ := h
  obtain ⟨y, hy, hys⟩ := hrun
  have := whileLoop_some_unique _ _ _ _ _ _ _ hx hy
  subst this
  rw [← hxb, hys]
  exact ht

/-- The calls of a `runLuaTasks` drain that returns, whatever the bound it ran under. -/
theorem runLuaTasks_some_trace (lua : LuaState) (fuel : Nat) (s c : App)
    (h : runLuaTasks lua fuel s = some c) :
    ∃ es : List Effect, c.trace = s.trace ++ es ∧ ∀ e ∈ es, e.isScriptPhase = true := by
  obtain ⟨s2, es, hrun, ht, hp⟩ := runLuaTasks_trace lua s 0
  refine ⟨es, ?_, hp⟩
  unfold runLuaTasks at h hrun
  have := whileLoop_some_unique _ _ _ _ _ _ _ h hrun
  subst this
  exact ht

theorem updateMainCamera_traceExt (s : App) :
    TraceExt (fun e => e.isRender = true) s (updateMainCamera s).state := by
  unfold updateMainCamera
  dsimp only
  split_ifs
  · exact (renderExt_refl s).emit _ rfl
  · exact (((renderExt_refl s).emit (Effect.updateAbsolutePosition s.mainCamera) rfl).emit
      (Effect.updateAbsolutePosition s.mainCameraForward) rfl).emit
      (Effect.setTarget s.mainCamera s.mainCameraForward) rfl
  · exact renderExt_refl s

theorem finishFrame_trace (s : App) :
    ∃ es : List Effect, (finishFrame s).trace = s.trace ++ (es ++ [Effect.endScene])
      ∧ ∀ e ∈ es, e.isRender = true := by
  unfold finishFrame
  cases hg : s.renderedGUI
  · exact ⟨[Effect.guiDrawAll], by simp [App.emit], by simp [Effect.isRender]⟩
  · exact ⟨[], by simp [App.emit], by simp⟩

/-- The calls of a render phase that goes through: renderer calls, `beginScene` among them,
then `endScene`. -/
theorem renderPhase_trace (fuel : Nat) (s a : App) (h : renderPhase fuel s = some (Run.ok a)) :
    ∃ R : List Effect, a.trace = s.trace ++ (R ++ [Effect.endScene])
      ∧ (∀ e ∈ R, e.isRender = true) ∧ Effect.beginScene ∈ R := by
  unfold renderPhase at h
  have hm := updateMainCamera_traceExt s
  cases hu : updateMainCamera s with
  | fault x =>
    rw [hu] at h
    simp at h
  | ok x =>
    rw [hu] at h hm
    simp only [Option.map_eq_some'] at h
    obtain ⟨r, hr, hra⟩ := h
    have hh := HandleCameraQueue_traceExt fuel x r hr
    cases r with
    | fault y => simp [Run.bind] at hra
    | ok y =>
      simp only [Run.bind, Run.ok.injEq] at hra
      obtain ⟨M, hM, hMp⟩ := hm
      obtain ⟨H, hH, hHp⟩ := hh
      obtain ⟨G, hG, hGp⟩ := finishFrame_trace y
      refine ⟨M ++ (Effect.beginScene :: (H ++ G)), ?_, ?_, by simp⟩
      · rw [← hra, hG]
        have hy : y.trace = (x.trace ++ [Effect.beginScene]) ++ H := hH
        have hx : x.trace = s.trace ++ M := hM
        rw [hy, hx]
        simp
      · intro e he
        simp only [List.mem_append, List.mem_cons] at he
        rcases he with h1 | h1 | h1 | h1
        · exact hMp e h1
        · rw [h1]; rfl
        · exact hHp e h1
        · exact hGp e h1

theorem onUpdateStep_trace (update : UpdateOutcome) (s s2 : App)
    (h : onUpdateStep update s = Tick.completed s2) :
    ∃ U : List Effect, s2.trace = s.trace ++ U ∧ ∀ e ∈ U, e.isUpdatePhase = true := by
  cases update with
  | absent =>
    simp only [onUpdateStep, Tick.completed.injEq] at h
    subst h
    exact ⟨[], by simp, by simp⟩
  | returns =>
    simp only [onUpdateStep, Tick.completed.injEq] at h
    subst h
    exact ⟨[Effect.onUpdate], rfl, by simp [Effect.isUpdatePhase]⟩
  | invalid msg =>
    simp only [onUpdateStep, Tick.completed.injEq] at h
    subst h
    exact ⟨[Effect.onUpdate, Effect.sendMsg msg MESSAGE_TYPE.WARNING], by simp [App.emit],
      by simp [Effect.isUpdatePhase]⟩
  | throws err => simp [onUpdateStep] at h

/-- In a tick of `tickApp` (a Receive event with its handler declared and a Broadcast packet
queued) the render phase comes first, then the event drain, then the call of the deferred
callback, then the packet drain: the packet is broadcast after the scene was rendered and
after the deferred callback was called, not before. -/
theorem tick_renders_before_drains :
    ∃ s4 : App,
      appLoopTick serverReceiveLua UpdateOutcome.returns true 2 tickApp
          = some (Tick.completed s4)
      ∧ s4.trace =
          [Effect.onUpdate,
           Effect.updateAbsolutePosition 1, Effect.updateAbsolutePosition 9,
           Effect.setTarget 1 9, Effect.beginScene, Effect.setCameraMatrix 1,
           Effect.smgrDrawAll, Effect.setActiveCamera 1, Effect.guiDrawAll, Effect.endScene,
           Effect.lock, Effect.unlock,
           Effect.invoke 3 [LuaValue.number 1, LuaValue.packet 11 0],
           Effect.lock, Effect.setFlags 7 1, Effect.hostBroadcast 1 255 7,
           Effect.hostFlush 1, Effect.unlock]
      ∧ ¬ (s4.trace.indexOf (Effect.hostBroadcast 1 255 7)
            < s4.trace.indexOf Effect.beginScene)
      ∧ ¬ (s4.trace.indexOf (Effect.hostBroadcast 1 255 7)
            < s4.trace.indexOf (Effect.invoke 3 [LuaValue.number 1, LuaValue.packet 11 0])) :=
  ⟨_, rfl, by decide, by decide, by decide⟩

/-- Claim C13 as amended. In every tick of `appLoop` that runs to the end of the loop body
the phases run in this order: the call of `Lime.OnUpdate` (calls `U`), the render phase
(renderer calls `R`, `beginScene` among them, closed by `endScene`), the inbound event drain
`runEventTasks` (from the state `a` the render phase leaves), the deferred callback
invocation `runLuaTasks` (from the state `b` the event drain leaves), and the outbound
packet drain `runPacketToSend` (from the state `c` the callbacks leave). -/
theorem appLoopTick_phase_order (lua : LuaState) (update : UpdateOutcome) (ranHandlers : Bool)
    (fuel : Nat) (s s4 : App)
    (h : appLoopTick lua update ranHandlers fuel s = some (Tick.completed s4)) :
    ∃ (a b c : App) (U R E L P : List Effect),
      a.trace = s.trace ++ U ++ (R ++ [Effect.endScene])
        ∧ (∀ e ∈ U, e.isUpdatePhase = true)
        ∧ (∀ e ∈ R, e.isRender = true) ∧ Effect.beginScene ∈ R
        ∧ runEventTasks lua fuel a = some b
        ∧ b.trace = a.trace ++ (Effect.lock :: (E ++ [Effect.unlock]))
        ∧ (∀ e ∈ E, e.isQuiet = true)
        ∧ runLuaTasks lua fuel b = some c
        ∧ c.trace = b.trace ++ L
        ∧ (∀ e ∈ L, e.isScriptPhase = true)
        ∧ runPacketToSend fuel c = some s4
        ∧ s4.trace = c.trace ++ (Effect.lock :: (P ++ [Effect.unlock]))
        ∧ (∀ e ∈ P, e.isSendPhase = true) := by
  unfold appLoopTick at h
  dsimp only at h
  cases hstep : onUpdateStep update (if (!ranHandlers) = true then s.emit Effect.networkHandle
      else s) with
  | returned x => rw [hstep] at h; simp at h
  | fault x => rw [hstep] at h; simp at h
  | completed s2 =>
    rw [hstep] at h
    dsimp only at h
    obtain ⟨U0, hU0, hU0p⟩ := onUpdateStep_trace _ _ _ hstep
    cases hren : renderPhase fuel s2 with
    | none => rw [hren] at h; simp at h
    | some r =>
      cases r with
      | fault x => rw [hren] at h; simp at h
      | ok a =>
        rw [hren] at h
        dsimp only at h
        simp only [Option.map_eq_some', Tick.completed.injEq] at h
        obtain ⟨x, hx, hxs⟩ := h
        subst hxs
        unfold drainPhase at hx
        simp only [Option.bind_eq_some] at hx
        obtain ⟨b, hb, c, hc, hp⟩ := hx
        obtain ⟨R, hR, hRp, hbegin⟩ := renderPhase_trace fuel s2 a hren
        obtain ⟨E, hE, hEp⟩ := runEventTasks_some_trace lua fuel a b hb
        obtain ⟨L, hL, hLp⟩ := runLuaTasks_some_trace lua fuel b c hc
        obtain ⟨_, P, hP, hPp⟩ := runPacketToSend_some fuel c x hp
        refine ⟨a, b, c, (if ranHandlers then [] else [Effect.networkHandle]) ++ U0, R, E, L, P,
          ?_, ?_, hRp, hbegin, hb, hE, hEp, hc, hL, hLp, hp, hP, fun e he => (hPp e he).1⟩
        · rw [hR, hU0]
          cases ranHandlers <;> simp [App.emit]
        · intro e he
          simp only [List.mem_append] at he
          rcases he with h1 | h1
          · cases ranHandlers <;> simp at h1
            rw [h1]; rfl
          · exact hU0p e h1

theorem appLoopTick_phase_order_witness :
    ∃ (s4 a b c : App),
      appLoopTick serverReceiveLua UpdateOutcome.returns true 2 tickApp
          = some (Tick.completed s4)
        ∧ runEventTasks serverReceiveLua 2 a = some b
        ∧ runLuaTasks serverReceiveLua 2 b = some c
        ∧ runPacketToSend 2 c = some s4
        ∧ Effect.endScene ∈ a.trace
        ∧ Effect.lock ∉ a.trace := by
  have hrun : appLoopTick serverReceiveLua UpdateOutcome.returns true 2 tickApp
      = some (Tick.completed (((appLoopTick serverReceiveLua UpdateOutcome.returns true 2
          tickApp).map Tick.state).getD tickApp)) := by decide
  obtain ⟨a, b, c, U, R, E, L, P, h1, h2, h3, _, h5, _, _, h8, _, _, h11, _, _⟩ :=
    appLoopTick_phase_order serverReceiveLua UpdateOutcome.returns true 2 tickApp _ hrun
  refine ⟨_, a, b, c, hrun, h5, h8, h11, by rw [h1]; simp, ?_⟩
  rw [h1]
  intro hmem
  simp only [List.mem_append, List.mem_singleton] at hmem
  have hnil : tickApp.trace = [] := rfl
  rw [hnil] at hmem
  rcases hmem with (h | h) | h | h
  · simp at h
  · have := h2 _ h
    simp [Effect.isUpdatePhase] at this
  · have := h3 _ h
    simp [Effect.isRender] at this
  · simp at h

end Lime
